import Mathlib

/-!
# FrequonInvaders: the population simulator of package `universe`

A shallow embedding of `src/universe/universe.go` and the properties of its
specification.

Modelling conventions.

* `float32` values are exact rationals (`ℚ`): infinities and NaN are not
  modelled, and rounding is modelled in one place, where it decides an
  integer: the product that `updateLive` converts to `healthType` is rounded
  to `float32` (`roundFloat32`) before the conversion truncates it.  `int32`
  and `int` values are integers, and the conversion `float32(n)` is the cast
  of `n`.
* `healthType` is `int16`: a health is an `Int`, and every arithmetic result
  stored in a health goes through `wrapHealth` (two's complement, 16 bits).
* The package variables (`zooStorage`, `Zoo`, `xSize`, `ySize`, `killRadius2`,
  `birthRate`, `maxLive`, `velocityMax`) are the fields of `Universe`.  `Zoo`
  is always a slice `zooStorage[0:n]`, so it is stored as its length `zooLen`.
* A Go panic is `Except.error Fault.panic`.  The `for` loop of `bounce` has no
  bound in the source, so it runs on fuel and `Fault.outOfFuel` stands for an
  execution that has not left the loop.
* `math32.Sqrt`, `math32.Cos`, `math32.Sin` and `math32.Pi` belong to a package
  that is not part of the sources at hand: they are the fields of `Math32`.
* The draws of `math/rand` made by one `tryBirth` call are the fields of
  `Draws`, one field for each call site, in the order of the calls.
-/

namespace Frequon

/-- Ways in which an execution does not return a value. -/
inductive Fault where
  | panic
  | outOfFuel
  deriving DecidableEq, Repr

/-- The record `Critter` of the source, field for field. -/
structure Critter where
  Sx : ℚ
  Sy : ℚ
  vx : ℚ
  vy : ℚ
  Amplitude : ℚ
  Progress : ℚ
  fallRate : ℚ
  health : Int
  Show : Bool
  id : Int
  deriving DecidableEq

/-- The zero value of `Critter`, as Go gives every entry of `zooStorage`. -/
def Critter.zero : Critter :=
  { Sx := 0, Sy := 0, vx := 0, vy := 0, Amplitude := 0, Progress := 0,
    fallRate := 0, health := 0, Show := false, id := 0 }

instance : Inhabited Critter := ⟨Critter.zero⟩

/-- Constant `initialHealth healthType = 0x7FFF`. -/
def initialHealth : Int := 0x7FFF

/-- Constant `deathThreshold healthType = -0x8000`. -/
def deathThreshold : Int := -0x8000

/-- Constant `killTime = 0.1`. -/
def killTime : ℚ := 1 / 10

/-- Constant `amplitudeDieTime = 2.0`. -/
def amplitudeDieTime : ℚ := 2

/-- Constant `MaxCritter = 16`, the length of `zooStorage`. -/
def MaxCritter : Nat := 16

/-- Two's complement reduction of an integer to `int16`. -/
def wrapHealth (x : Int) : Int := (x + 32768) % 65536 - 32768

/-- Truncation toward zero, the integer part kept by a Go conversion from a
floating-point value to an integer type. -/
def truncate (x : ℚ) : Int := if 0 ≤ x then ⌊x⌋ else ⌈x⌉

/-- The conversion `healthType(x)` of a `float32`.  Go fixes the result only
when the truncated value fits `int16`; outside that range the model wraps. -/
def toHealth (x : ℚ) : Int := wrapHealth (truncate x)

/-- Rounding to the nearest integer, a tie going to the even one. -/
def roundHalfEven (y : ℚ) : Int :=
  let f := ⌊y⌋
  if y - f < 1 / 2 then f
  else if 1 / 2 < y - f then f + 1
  else if f % 2 = 0 then f else f + 1

/-- The `float32` nearest to `x`, a tie going to the even significand: the
result of one `float32` operation whose exact result is `x`.  The significand
has 24 bits and the exponent is at least `-126` (below it the values are
subnormal); overflow to infinity is not modelled. -/
def roundFloat32 (x : ℚ) : ℚ :=
  if x = 0 then 0
  else
    let e := max (Int.log 2 |x|) (-126)
    let q : ℚ := (2 : ℚ) ^ (e - 23)
    (roundHalfEven (x / q) : ℚ) * q

/-- The functions and the constant taken from package `math32`. -/
structure Math32 where
  Sqrt : ℚ → ℚ
  Cos : ℚ → ℚ
  Sin : ℚ → ℚ
  Pi : ℚ

/-- The package variables of `universe`. -/
structure Universe where
  zooStorage : List Critter
  zooLen : Nat
  xSize : ℚ
  ySize : ℚ
  killRadius2 : ℚ
  birthRate : ℚ
  maxLive : Int
  velocityMax : ℚ

/-- The results of the `math/rand` calls of one `tryBirth`: `birth` is the
`rand.Float32()` of the admission test, `pick` the `rand.Intn(avail)`, and
`posX`, `posY`, `angX`, `angY`, `fall` the five `rand.Float32()` of
`initAlien`, in source order. -/
structure Draws where
  birth : ℚ
  pick : Nat
  posX : ℚ
  posY : ℚ
  angX : ℚ
  angY : ℚ
  fall : ℚ

/-- Entry `k` of the backing array. -/
def slot (s : List Critter) (k : Nat) : Critter := s.getD k Critter.zero

/-- The slice `Zoo`, that is `zooStorage[0:zooLen]`. -/
def Universe.Zoo (u : Universe) : List Critter := u.zooStorage.take u.zooLen

/-- The shape every state of the program has: `zooStorage` is an array of
`MaxCritter` entries and `Zoo` is a slice of it. -/
def WellFormed (u : Universe) : Prop :=
  u.zooStorage.length = MaxCritter ∧ u.zooLen ≤ MaxCritter

/-- The store before `Init`: every package variable at its declared value. -/
def Universe.start : Universe :=
  { zooStorage := List.replicate MaxCritter Critter.zero, zooLen := 0,
    xSize := 0, ySize := 0, killRadius2 := 0,
    birthRate := 1, maxLive := 1, velocityMax := 1 }

/-- Function `Init(width, height int32)`. -/
def Init (u : Universe) (width height : Int) : Universe :=
  let xSize : ℚ := width
  let ySize : ℚ := height
  { u with
    xSize := xSize
    ySize := ySize
    zooLen := 1
    zooStorage := u.zooStorage.mapIdx (fun k c => { c with id := (k : Int) })
    killRadius2 := (xSize * ySize) * ((9 / 16) / (32 * 32)) }

/-- The `for` loop of `bounce`, on fuel. -/
def bounceLoop : Nat → ℚ → ℚ → ℚ → Except Fault (ℚ × ℚ)
  | 0, _, _, _ => .error .outOfFuel
  | fuel + 1, s, v, limit =>
    if s < 0 then bounceLoop fuel (-s) (-v) limit
    else if s > limit then bounceLoop fuel (2 * limit - s) (-v) limit
    else .ok (s, v)

/-- Function `bounce(sref, vref *float32, limit, dt float32)`: the arguments
`s0` and `v0` are the values behind the two pointers, the result is the pair
written back through them. -/
def bounce (fuel : Nat) (s0 v0 limit dt : ℚ) : Except Fault (ℚ × ℚ) :=
  let v := v0
  let s := s0 + v * dt
  if s < 0 ∨ s > limit then .error .panic
  else bounceLoop fuel s v limit

/-- The part of the body of the `for` loop of `updateLive` that follows the two
calls of `bounce` ("Update Progress", "Update health", "Update amplitude"):
`c` is `Zoo[k]` as the calls left it and `(x0, y0)` the position of `Zoo[0]`. -/
def updateState (m : Math32) (u : Universe) (dt x0 y0 : ℚ) (c : Critter) : Critter :=
  let c2 : Critter := { c with Progress := c.Progress + c.fallRate * dt }
  let c3 : Critter :=
    if c2.health > 0 then
      let dx := c2.Sx - x0
      let dy := c2.Sy - y0
      if dx * dx + dy * dy ≤ u.killRadius2 then
        let h := wrapHealth
          (c2.health - toHealth (roundFloat32 (dt * ((initialHealth : ℚ) / killTime))))
        let h1 := if h ≤ 0 then -1 else h
        { c2 with health := h1, Show := true }
      else
        { c2 with Show := false }
    else
      { c2 with health := wrapHealth (c2.health - 1), Show := true }
  if c3.health > 0 then
    { c3 with Amplitude := m.Sqrt c3.Progress }
  else
    let a := c3.Amplitude - dt * (1 / amplitudeDieTime)
    if a < 0 then
      { c3 with Amplitude := a, health := deathThreshold }
    else
      { c3 with Amplitude := a }

/-- The body of the `for` loop of `updateLive`, applied to `c = Zoo[k]` with
`(x0, y0)` the position of `Zoo[0]`. -/
def updateAlien (m : Math32) (fuel : Nat) (u : Universe) (dt x0 y0 : ℚ)
    (c : Critter) : Except Fault Critter :=
  match bounce fuel c.Sx c.vx (u.xSize - 1) dt with
  | .error e => .error e
  | .ok (sx, vx) =>
    match bounce fuel c.Sy c.vy (u.ySize - 1) dt with
    | .error e => .error e
    | .ok (sy, vy) =>
      .ok (updateState m u dt x0 y0 { c with Sx := sx, vx := vx, Sy := sy, vy := vy })

/-- The `for k := 1; k < len(Zoo); k++` loop of `updateLive`: `n` is the
number of iterations left, `len(Zoo) - k`, which the body does not change. -/
def updateLiveLoop (m : Math32) (fuel : Nat) (dt x0 y0 : ℚ) :
    Nat → Nat → Universe → Except Fault Universe
  | 0, _, u => .ok u
  | n + 1, k, u =>
    match updateAlien m fuel u dt x0 y0 (slot u.zooStorage k) with
    | .error e => .error e
    | .ok c => updateLiveLoop m fuel dt x0 y0 n (k + 1)
        { u with zooStorage := u.zooStorage.set k c }

/-- Function `updateLive(dt float32)`.  Reading `Zoo[0]` panics on an empty
slice. -/
def updateLive (m : Math32) (fuel : Nat) (u : Universe) (dt : ℚ) :
    Except Fault Universe :=
  if u.zooLen < 1 then .error .panic
  else
    let x0 := (slot u.zooStorage 0).Sx
    let y0 := (slot u.zooStorage 0).Sy
    updateLiveLoop m fuel dt x0 y0 (u.zooLen - 1) 1 u

/-- The `else` branch of the loop body of `cullDead`: cull `Zoo[j]` by moving
its id to the end and shrinking the slice. -/
def cullAt (j : Nat) (u : Universe) : Universe :=
  let k := u.zooLen - 1
  let deadId := (slot u.zooStorage j).id
  let s1 := u.zooStorage.set j (slot u.zooStorage k)
  let s2 := s1.set k { slot s1 k with id := deadId }
  { u with zooStorage := s2, zooLen := k }

/-- The `for j := 0; j < len(Zoo); j++` loop of `cullDead`, from index `j`. -/
def cullLoop (j : Nat) (u : Universe) : Universe :=
  if j < u.zooLen then
    if (slot u.zooStorage j).health > deathThreshold then
      cullLoop (j + 1) u
    else
      cullLoop (j + 1) (cullAt j u)
  else u
termination_by u.zooLen - j
decreasing_by
  all_goals simp_wf
  all_goals try simp only [cullAt]
  all_goals omega

/-- Function `cullDead()`. -/
def cullDead (u : Universe) : Universe := cullLoop 0 u

/-- Method `(c *Critter) initAlien()`. -/
def initAlien (m : Math32) (d : Draws) (u : Universe) (c : Critter) : Critter :=
  { c with
    Sx := d.posX * u.xSize
    Sy := d.posY * u.ySize
    vx := m.Cos (2 * m.Pi * d.angX) * u.velocityMax
    vy := m.Sin (2 * m.Pi * d.angY) * u.velocityMax
    Amplitude := 0
    Progress := 0
    fallRate := (d.fall + 1) * (256 / 10000)
    health := initialHealth
    Show := false }

/-- Function `tryBirth(dt float32)`.  `rand.Intn` panics on an argument that
is not positive, and indexing `zooStorage` panics past its end. -/
def tryBirth (m : Math32) (d : Draws) (u : Universe) (dt : ℚ) :
    Except Fault Universe :=
  let j := u.zooLen
  if u.maxLive > (MaxCritter : Int) - 1 then .error .panic
  else
    let nLive : Int := (j : Int) - 1
    if nLive > u.maxLive then .error .panic
    else if nLive ≥ u.maxLive then .ok u
    else if d.birth > dt * u.birthRate then .ok u
    else
      let avail : Int := (MaxCritter : Int) - (u.zooLen : Int)
      if avail ≤ 0 then .error .panic
      else
        let k := d.pick + j
        if MaxCritter ≤ k then .error .panic
        else
          let idj := (slot u.zooStorage j).id
          let idk := (slot u.zooStorage k).id
          let s1 := u.zooStorage.set j { slot u.zooStorage j with id := idk }
          let s2 := s1.set k { slot s1 k with id := idj }
          let u1 : Universe := { u with zooStorage := s2, zooLen := j + 1 }
          .ok { u1 with zooStorage := s2.set j (initAlien m d u1 (slot s2 j)) }

/-- Function `Update(dt float32, selfX, selfY int32)`. -/
def Update (m : Math32) (fuel : Nat) (d : Draws) (u : Universe) (dt : ℚ)
    (selfX selfY : Int) : Except Fault Universe :=
  if u.zooLen < 1 then .error .panic
  else
    let c0 : Critter :=
      { slot u.zooStorage 0 with Sx := (selfX : ℚ), Sy := (selfY : ℚ), Amplitude := -1 }
    let u0 : Universe := { u with zooStorage := u.zooStorage.set 0 c0 }
    match updateLive m fuel u0 dt with
    | .error e => .error e
    | .ok u1 => tryBirth m d (cullDead u1) dt

/-- Method `(c *Critter) ImageIndex() int`. -/
def ImageIndex (c : Critter) : Int :=
  if c.health ≥ 0 then 0 else -c.health

/-! ## Notions used to state the properties -/

/-- The ids stored in the backing array, slot by slot. -/
def ids (u : Universe) : List Int := u.zooStorage.map (fun c => c.id)

/-- The ids `0 .. MaxCritter-1` in order. -/
def allIds : List Int := List.map Int.ofNat (List.range MaxCritter)

/-- The test of `cullDead`: the entity is a survivor, not terminal. -/
def survivor (c : Critter) : Bool := decide (c.health > deathThreshold)

/-- The free slots `3 .. MaxCritter-1` of the sample populations, each holding
its own index as id. -/
def spareSlots : List Critter :=
  List.map (fun (k : Nat) => { Critter.zero with id := Int.ofNat k + 3 }) (List.range 13)

/-- A sample population on a 640 by 480 field with `maxLive = 2`: `r` in slot
0, `a` and `b` in slots 1 and 2, and `Zoo` of length `n`. -/
def sampleZoo (r a b : Critter) (n : Nat) : Universe :=
  { zooStorage := r :: a :: b :: spareSlots, zooLen := n,
    xSize := 640, ySize := 480, killRadius2 := (640 * 480) * ((9 / 16) / (32 * 32)),
    birthRate := 1, maxLive := 2, velocityMax := 1 }

/-- The reference entity as `Update` leaves it for the player at `(320, 240)`. -/
def refCritter : Critter := { Critter.zero with Sx := 320, Sy := 240, Amplitude := -1 }

/-- A dying alien with id `i`, three frames into its death sequence with
amplitude `1/1000` left, at `(100, 100)` with velocity `(1, 0)`. -/
def dyingAlien (i : Int) : Critter :=
  { Sx := 100, Sy := 100, vx := 1, vy := 0, Amplitude := 1 / 1000, Progress := 1 / 4,
    fallRate := 256 / 10000, health := -3, Show := true, id := i }

/-- The alien `dyingAlien i` after one frame of `1/100` s: its amplitude has
dropped below zero and it is terminal. -/
def spentAlien (i : Int) : Critter :=
  { Sx := 100 + 1 / 100, Sy := 100, vx := 1, vy := 0, Amplitude := -1 / 250,
    Progress := 1 / 4 + 256 / 10000 * (1 / 100),
    fallRate := 256 / 10000, health := deathThreshold, Show := true, id := i }

/-- Stand-ins for the functions of `math32` in the closed examples, none of
which depends on the values chosen here. -/
def Math32.sample : Math32 :=
  { Sqrt := fun x => x, Cos := fun _ => 1, Sin := fun _ => 0, Pi := 3 }

/-- Draws with an admission sample of `1/2`. -/
def Draws.sample : Draws :=
  { birth := 1 / 2, pick := 0, posX := 1 / 2, posY := 1 / 2, angX := 0, angY := 0,
    fall := 0 }

/-- The health that one caught frame of length `dt` takes from an alien, as
`updateLive` computes it: `healthType(dt * (float32(initialHealth) / killTime))`,
the integer part of the `float32` product. -/
def damage (dt : ℚ) : Int :=
  toHealth (roundFloat32 (dt * ((initialHealth : ℚ) / killTime)))

/-- Draws that let a birth through whenever `dt * birthRate` is not negative, into
the fourth free slot. -/
def Draws.birthing : Draws :=
  { birth := 0, pick := 3, posX := 1 / 2, posY := 1 / 2, angX := 0, angY := 0, fall := 0 }

/-- An alive alien with health `h` at `(100, 100)`, with velocity `(1, 0)`
and amplitude `1/2`. -/
def aliveAlien (h : Int) : Critter :=
  { Sx := 100, Sy := 100, vx := 1, vy := 0, Amplitude := 1 / 2, Progress := 1 / 4,
    fallRate := 256 / 10000, health := h, Show := false, id := 1 }

/-- Consecutive `updateLive` steps of one alien with a constant `dt`, one for
each entry of `refs`, the position of `Zoo[0]` in that frame. -/
def runAlien (m : Math32) (fuel : Nat) (u : Universe) (dt : ℚ) :
    List (ℚ × ℚ) → Critter → Except Fault Critter
  | [], c => .ok c
  | r :: rest, c =>
    match updateAlien m fuel u dt r.1 r.2 c with
    | .error e => .error e
    | .ok c' => runAlien m fuel u dt rest c'

/-- The alien is caught on every frame of the run: each step returns and
leaves it at a squared distance of at most `killRadius2` from `Zoo[0]`. -/
def caughtAll (m : Math32) (fuel : Nat) (u : Universe) (dt : ℚ) :
    List (ℚ × ℚ) → Critter → Bool
  | [], _ => true
  | r :: rest, c =>
    match updateAlien m fuel u dt r.1 r.2 c with
    | .error _ => false
    | .ok c' =>
      decide ((c'.Sx - r.1) * (c'.Sx - r.1) + (c'.Sy - r.2) * (c'.Sy - r.2) ≤ u.killRadius2)
        && caughtAll m fuel u dt rest c'

/-- The alien is not terminal at the start of any frame of the run. -/
def neverTerminal (m : Math32) (fuel : Nat) (u : Universe) (dt : ℚ) :
    List (ℚ × ℚ) → Critter → Bool
  | [], _ => true
  | r :: rest, c =>
    decide (deathThreshold < c.health) &&
      match updateAlien m fuel u dt r.1 r.2 c with
      | .error _ => false
      | .ok c' => neverTerminal m fuel u dt rest c'

/-- The draws of a generator that always returns `0`. -/
def Draws.zero : Draws :=
  { birth := 0, pick := 0, posX := 0, posY := 0, angX := 0, angY := 0, fall := 0 }

/-- A rational stand-in for the cosine and sine of `math32`, with `Pi = 3`:
for `t = 2 * x / 3` it gives the point `((1 - t²) / (1 + t²), 2 t / (1 + t²))`
of the unit circle.  It satisfies `Cos x ^ 2 + Sin x ^ 2 = 1` for every `x`
and has the values of cosine and sine at `0` and at `Pi / 2`. -/
def Math32.circle : Math32 :=
  { Sqrt := fun x => x
    Cos := fun x => (1 - (2 * x / 3) ^ 2) / (1 + (2 * x / 3) ^ 2)
    Sin := fun x => 2 * (2 * x / 3) / (1 + (2 * x / 3) ^ 2)
    Pi := 3 }

/-- The alien `spentAlien i` after one more frame of `1/100` s with the
functions of `Math32.sample`: alive again, with health `initialHealth`. -/
def revivedAlien (i : Int) : Critter :=
  { Sx := 100 + 1 / 100 + 1 / 100, Sy := 100, vx := 1, vy := 0,
    Amplitude := 1 / 4 + 256 / 10000 * (1 / 100) + 256 / 10000 * (1 / 100),
    Progress := 1 / 4 + 256 / 10000 * (1 / 100) + 256 / 10000 * (1 / 100),
    fallRate := 256 / 10000, health := initialHealth, Show := true, id := i }

/-- The states that the program reaches from the zero-initialised store by
`Init` followed by calls of `Update` that return.  Between two frames the
caller may set `birthRate`, `maxLive` and `velocityMax` to any values; the
functions of `math32`, the fuel, the draws, `dt` and the coordinates of each
call are arbitrary. -/
inductive Reachable : Universe → Prop where
  | init (width height : Int) : Reachable (Init Universe.start width height)
  | update (m : Math32) (fuel : Nat) (d : Draws) (u u' : Universe) (dt : ℚ)
      (selfX selfY : Int) (birthRate : ℚ) (maxLive : Int) (velocityMax : ℚ) :
      Reachable u →
      Update m fuel d
        { u with birthRate := birthRate, maxLive := maxLive, velocityMax := velocityMax }
        dt selfX selfY = .ok u' →
      Reachable u'

/-! ## Lists: overwriting and swapping entries -/

/-- Overwriting entry `n` and putting the old entry in front is a
rearrangement of putting the new entry in front. -/
theorem perm_getD_cons_set {α : Type} (d x : α) :
    ∀ (t : List α) (n : Nat), n < t.length →
      List.Perm (t.getD n d :: t.set n x) (x :: t) := by
  intro t
  induction t with
  | nil => intro n h; simp at h
  | cons y t ih =>
    intro n h
    cases n with
    | zero => simpa using List.Perm.swap x y t
    | succ n =>
      have h1 : n < t.length := by simpa using h
      simp only [List.getD_cons_succ, List.set_cons_succ]
      exact ((List.Perm.swap y (t.getD n d) (t.set n x)).trans
        ((ih n h1).cons y)).trans (List.Perm.swap x y t)

/-- Exchanging the entries `j ≤ k` of a list rearranges it. -/
theorem perm_swap_entries {α : Type} (d : α) :
    ∀ (l : List α) (j k : Nat), j ≤ k → k < l.length →
      List.Perm ((l.set j (l.getD k d)).set k (l.getD j d)) l := by
  intro l
  induction l with
  | nil => intro j k _ h; simp at h
  | cons x t ih =>
    intro j k hjk hk
    cases j with
    | zero =>
      cases k with
      | zero => simp
      | succ k =>
        have h1 : k < t.length := by simpa using hk
        simpa using perm_getD_cons_set d x t k h1
    | succ j =>
      cases k with
      | zero => omega
      | succ k =>
        have h1 : k < t.length := by simpa using hk
        simp only [List.getD_cons_succ, List.set_cons_succ]
        exact (ih j k (by omega) h1).cons x

/-- Overwriting an entry that a filter rejects: the filtered list gains the
new entry and loses nothing. -/
theorem filter_set_perm {α : Type} (d a : α) (p : α → Bool) (t : List α) (j : Nat)
    (hj : j < t.length) (hp : p (t.getD j d) = false) :
    List.Perm ((t.set j a).filter p) ((t ++ [a]).filter p) := by
  have h1 := (perm_getD_cons_set d a t j hj).filter p
  rw [List.filter_cons_of_neg (by rw [hp]; decide)] at h1
  exact h1.trans ((List.perm_append_singleton a t).symm.filter p)

/-! ## The loop of `cullDead` -/

theorem cullLoop_induction (Inv : Nat → Universe → Prop)
    (keep : ∀ j u, j < u.zooLen → (slot u.zooStorage j).health > deathThreshold →
      Inv j u → Inv (j + 1) u)
    (cull : ∀ j u, j < u.zooLen → ¬ (slot u.zooStorage j).health > deathThreshold →
      Inv j u → Inv (j + 1) (cullAt j u)) :
    ∀ j u, Inv j u → ∃ j', (cullLoop j u).zooLen ≤ j' ∧ Inv j' (cullLoop j u) := by
  intro j u
  induction j, u using cullLoop.induct with
  | case1 j u hlt hs ih =>
    intro h
    rw [cullLoop, if_pos hlt, if_pos hs]
    exact ih (keep j u hlt hs h)
  | case2 j u hlt hs ih =>
    intro h
    rw [cullLoop, if_pos hlt, if_neg hs]
    exact ih (cull j u hlt hs h)
  | case3 j u hlt =>
    intro h
    rw [cullLoop, if_neg hlt]
    exact ⟨j, by omega, h⟩

theorem slot_map_id (s : List Critter) (k : Nat) :
    (s.map (fun c => c.id)).getD k 0 = (slot s k).id := by
  unfold slot
  rw [List.getD_eq_getElem?_getD, List.getD_eq_getElem?_getD, List.getElem?_map]
  cases s[k]? <;> simp [Critter.zero]

theorem slot_set_self (s : List Critter) (k : Nat) (c : Critter) (h : k < s.length) :
    slot (s.set k c) k = c := by
  unfold slot
  rw [List.getD_eq_getElem?_getD, List.getElem?_set]
  simp [h]

theorem slot_set_ne (s : List Critter) (j k : Nat) (c : Critter) (h : j ≠ k) :
    slot (s.set j c) k = slot s k := by
  unfold slot
  rw [List.getD_eq_getElem?_getD, List.getD_eq_getElem?_getD, List.getElem?_set]
  simp [h]

theorem cullAt_length (j : Nat) (u : Universe) :
    (cullAt j u).zooStorage.length = u.zooStorage.length := by
  simp [cullAt]

theorem cullAt_zooLen (j : Nat) (u : Universe) : (cullAt j u).zooLen = u.zooLen - 1 := rfl

/-- The entry that `cullAt` leaves in slot `zooLen - 1` carries the dead id. -/
theorem cullAt_last_id (j : Nat) (u : Universe) :
    ids (cullAt j u) =
      ((ids u).set j ((ids u).getD (u.zooLen - 1) 0)).set (u.zooLen - 1) ((ids u).getD j 0) := by
  simp only [ids, cullAt, List.map_set, slot_map_id]

theorem cullAt_ids_perm (j : Nat) (u : Universe) (hj : j < u.zooLen)
    (hlen : u.zooLen ≤ u.zooStorage.length) : List.Perm (ids (cullAt j u)) (ids u) := by
  rw [cullAt_last_id j u]
  exact perm_swap_entries 0 (ids u) j (u.zooLen - 1) (by omega) (by simp [ids]; omega)

/-- What `cullAt` leaves in the live slice: the old slice without its last
entry, with that last entry written over slot `j`. -/
theorem cullAt_Zoo (j : Nat) (u : Universe) :
    (cullAt j u).Zoo =
      (u.zooStorage.take (u.zooLen - 1)).set j (slot u.zooStorage (u.zooLen - 1)) := by
  simp only [Universe.Zoo, cullAt, List.set_take]
  rw [List.set_eq_of_length_le (n := u.zooLen - 1)]
  simp

theorem Zoo_snoc (u : Universe) (h0 : 0 < u.zooLen) (hlen : u.zooLen ≤ u.zooStorage.length) :
    u.Zoo = u.zooStorage.take (u.zooLen - 1) ++ [slot u.zooStorage (u.zooLen - 1)] := by
  have hk : u.zooLen - 1 < u.zooStorage.length := by omega
  have h1 : u.zooLen = (u.zooLen - 1) + 1 := by omega
  unfold Universe.Zoo slot
  conv_lhs => rw [h1]
  rw [List.take_succ, List.getD_eq_getElem?_getD, List.getElem?_eq_getElem hk]
  simp

theorem cullAt_survivors (j : Nat) (u : Universe) (hj : j < u.zooLen)
    (hlen : u.zooLen ≤ u.zooStorage.length)
    (hdead : ¬ (slot u.zooStorage j).health > deathThreshold) :
    List.Perm ((cullAt j u).Zoo.filter survivor) (u.Zoo.filter survivor) := by
  have hd : survivor (slot u.zooStorage j) = false := by simp [survivor, hdead]
  rw [cullAt_Zoo, Zoo_snoc u (by omega) hlen]
  rcases Nat.lt_or_ge j (u.zooLen - 1) with hjk | hjk
  · apply filter_set_perm Critter.zero
    · simp; omega
    · have : (List.take (u.zooLen - 1) u.zooStorage).getD j Critter.zero = slot u.zooStorage j := by
        unfold slot
        rw [List.getD_eq_getElem?_getD, List.getD_eq_getElem?_getD, List.getElem?_take_of_lt hjk]
      rw [this]; exact hd
  · have hjk' : j = u.zooLen - 1 := by omega
    rw [List.set_eq_of_length_le (by simp; omega), List.filter_append]
    rw [← hjk']
    simp [hd]

/-! ## `bounce` and the loop body of `updateLive` -/

/-- Whatever the loop of `bounce` returns lies in `[0, limit]`, with the
velocity kept up to sign. -/
theorem bounceLoop_range : ∀ (fuel : Nat) (s v limit s' v' : ℚ),
    bounceLoop fuel s v limit = .ok (s', v') → 0 ≤ s' ∧ s' ≤ limit ∧ |v'| = |v| := by
  intro fuel
  induction fuel with
  | zero => intro s v limit s' v' h; simp [bounceLoop] at h
  | succ n ih =>
    intro s v limit s' v' h
    rw [bounceLoop] at h
    split_ifs at h with h1 h2
    · have := ih _ _ _ _ _ h
      rw [abs_neg] at this
      exact this
    · have := ih _ _ _ _ _ h
      rw [abs_neg] at this
      exact this
    · simp only [Except.ok.injEq, Prod.mk.injEq] at h
      obtain ⟨rfl, rfl⟩ := h
      exact ⟨not_lt.mp h1, not_lt.mp h2, rfl⟩

/-- With the tentative position inside `[0, limit]`, `bounce` returns it
and keeps the velocity, on any fuel but zero. -/
theorem bounce_inside (n : Nat) (s0 v0 limit dt : ℚ)
    (h0 : 0 ≤ s0 + v0 * dt) (h1 : s0 + v0 * dt ≤ limit) :
    bounce (n + 1) s0 v0 limit dt = .ok (s0 + v0 * dt, v0) := by
  simp [bounce, bounceLoop, not_lt.mpr h0, not_lt.mpr h1]

/-- With the tentative position outside `[0, limit]`, `bounce` panics. -/
theorem bounce_outside (fuel : Nat) (s0 v0 limit dt : ℚ)
    (h : s0 + v0 * dt < 0 ∨ limit < s0 + v0 * dt) :
    bounce fuel s0 v0 limit dt = .error .panic := by
  simp [bounce, h]

/-- With both tentative coordinates inside the field, the loop body returns
the state that `updateState` computes from the moved alien. -/
theorem updateAlien_inside (m : Math32) (n : Nat) (u : Universe) (dt x0 y0 : ℚ) (c : Critter)
    (hx0 : 0 ≤ c.Sx + c.vx * dt) (hx1 : c.Sx + c.vx * dt ≤ u.xSize - 1)
    (hy0 : 0 ≤ c.Sy + c.vy * dt) (hy1 : c.Sy + c.vy * dt ≤ u.ySize - 1) :
    updateAlien m (n + 1) u dt x0 y0 c =
      .ok (updateState m u dt x0 y0
        { c with Sx := c.Sx + c.vx * dt, Sy := c.Sy + c.vy * dt }) := by
  simp only [updateAlien, bounce_inside n _ _ _ _ hx0 hx1, bounce_inside n _ _ _ _ hy0 hy1]

/-! ## Rounding to `float32` -/

theorem roundHalfEven_floor_le (y : ℚ) : ⌊y⌋ ≤ roundHalfEven y := by
  unfold roundHalfEven
  simp only
  split_ifs <;> omega

theorem roundHalfEven_ge (y : ℚ) (z : Int) (h : (z : ℚ) ≤ y) : z ≤ roundHalfEven y :=
  le_trans (Int.le_floor.mpr h) (roundHalfEven_floor_le y)

theorem roundHalfEven_le (y : ℚ) (z : Int) (h : y ≤ (z : ℚ)) : roundHalfEven y ≤ z := by
  have hf : ⌊y⌋ ≤ z := by
    have := Int.floor_le y
    exact_mod_cast (le_trans this h)
  have hup : (1 : ℚ) / 2 ≤ y - ⌊y⌋ → ⌊y⌋ + 1 ≤ z := by
    intro h1
    have h2 : ((⌊y⌋ : Int) : ℚ) < (z : ℚ) := by linarith
    have h3 : ⌊y⌋ < z := by exact_mod_cast h2
    omega
  unfold roundHalfEven
  simp only
  split_ifs with h1 h2 h3
  · exact hf
  · exact hup (le_of_lt h2)
  · exact hf
  · exact hup (not_lt.mp h1)

theorem roundHalfEven_intCast (z : Int) : roundHalfEven (z : ℚ) = z := by
  unfold roundHalfEven
  simp

/-- The grid of `float32` around a positive `x` below `2 ^ (b + 1)`, with
`-126 ≤ b ≤ 23`: its step is `1 / 2 ^ n` for a natural `n ≥ 23 - b`. -/
theorem float32_step (x : ℚ) (b : Int) (hx : 0 < x) (hb : x < (2 : ℚ) ^ (b + 1))
    (hb23 : b ≤ 23) (hb126 : -126 ≤ b) :
    ∃ n : Nat, 23 - b ≤ (n : Int) ∧
      roundFloat32 x = (roundHalfEven (x * 2 ^ n) : ℚ) / 2 ^ n := by
  have hlog : Int.log 2 |x| < b + 1 := by
    rw [abs_of_pos hx]
    have := (Int.lt_zpow_iff_log_lt (R := ℚ) (b := 2) (by norm_num) (x := b + 1) hx).mp
      (by exact_mod_cast hb)
    exact this
  obtain ⟨n, hn⟩ : ∃ n : Nat, (n : Int) = 23 - max (Int.log 2 |x|) (-126) :=
    ⟨(23 - max (Int.log 2 |x|) (-126)).toNat, by
      rw [Int.toNat_of_nonneg]
      omega⟩
  refine ⟨n, by omega, ?_⟩
  have hq : (2 : ℚ) ^ (max (Int.log 2 |x|) (-126) - 23) = 1 / 2 ^ n := by
    have : max (Int.log 2 |x|) (-126) - 23 = -(n : Int) := by omega
    rw [this, zpow_neg, zpow_natCast, one_div]
  unfold roundFloat32
  rw [if_neg (ne_of_gt hx)]
  simp only [hq]
  rw [div_div_eq_mul_div, div_one, mul_one_div]

/-- Below `2 ^ 24` rounding to `float32` stays between the two integers
around the exact value. -/
theorem roundFloat32_between (x : ℚ) (hx : 0 ≤ x) (hb : x < (2 : ℚ) ^ (24 : Int)) :
    ((⌊x⌋ : Int) : ℚ) ≤ roundFloat32 x ∧ roundFloat32 x ≤ ((⌈x⌉ : Int) : ℚ) := by
  rcases eq_or_lt_of_le hx with h0 | hpos
  · subst h0
    simp [roundFloat32]
  · obtain ⟨n, -, hr⟩ := float32_step x 23 hpos (by simpa using hb) (le_refl _) (by norm_num)
    have hp : (0 : ℚ) < 2 ^ n := by positivity
    rw [hr]
    constructor
    · rw [le_div_iff₀ hp]
      have h1 := roundHalfEven_ge (x * 2 ^ n) (⌊x⌋ * 2 ^ n) (by
        push_cast
        exact mul_le_mul_of_nonneg_right (Int.floor_le x) hp.le)
      have h2 : (((⌊x⌋ * 2 ^ n : Int)) : ℚ) ≤ (roundHalfEven (x * 2 ^ n) : ℚ) := by
        exact_mod_cast h1
      push_cast at h2
      exact h2
    · rw [div_le_iff₀ hp]
      have h1 := roundHalfEven_le (x * 2 ^ n) (⌈x⌉ * 2 ^ n) (by
        push_cast
        exact mul_le_mul_of_nonneg_right (Int.le_ceil x) hp.le)
      have h2 : (roundHalfEven (x * 2 ^ n) : ℚ) ≤ (((⌈x⌉ * 2 ^ n : Int)) : ℚ) := by
        exact_mod_cast h1
      push_cast at h2
      exact h2

/-- A positive value below `2 ^ 15` that is a multiple of `1 / 512` is a
`float32`: rounding leaves it as it is. -/
theorem roundFloat32_grid (x : ℚ) (z : Int) (hx : 0 < x) (hb : x < (2 : ℚ) ^ (15 : Int))
    (hz : x * 512 = (z : ℚ)) : roundFloat32 x = x := by
  obtain ⟨n, hn, hr⟩ := float32_step x 14 hx (by simpa using hb) (by norm_num) (by norm_num)
  obtain ⟨k, hk⟩ : ∃ k : Nat, n = 9 + k := ⟨n - 9, by omega⟩
  have hp : (0 : ℚ) < 2 ^ n := by positivity
  have hint : x * 2 ^ n = ((z * 2 ^ k : Int) : ℚ) := by
    push_cast
    rw [← hz, hk, pow_add]
    norm_num
    ring
  rw [hr, hint, roundHalfEven_intCast, ← hint]
  field_simp

/-! ## The damage of a caught frame -/

theorem wrapHealth_inside (x : Int) (h0 : -32768 ≤ x) (h1 : x ≤ 32767) : wrapHealth x = x := by
  unfold wrapHealth
  omega

/-- For a frame no longer than `killTime` the damage is the integer part of
the `float32` product: it lies between the two integers around the exact
product `dt * 327670`, and between `0` and `initialHealth`. -/
theorem damage_bounds (dt : ℚ) (h0 : 0 ≤ dt) (h1 : dt ≤ killTime) :
    damage dt = ⌊roundFloat32 (dt * 327670)⌋ ∧
    ⌊dt * 327670⌋ ≤ damage dt ∧ damage dt ≤ ⌈dt * 327670⌉ ∧
    0 ≤ damage dt ∧ damage dt ≤ initialHealth := by
  have hk : dt * ((initialHealth : ℚ) / killTime) = dt * 327670 := by
    simp only [initialHealth, killTime]; norm_num
  have hnn : (0 : ℚ) ≤ dt * 327670 := by positivity
  have hle : dt * 327670 ≤ 32767 := by
    have : dt ≤ 1 / 10 := h1
    linarith
  obtain ⟨hlo, hhi⟩ := roundFloat32_between (dt * 327670) hnn
    (lt_of_le_of_lt hle (by norm_num))
  have hf0 : 0 ≤ ⌊dt * 327670⌋ := Int.floor_nonneg.mpr hnn
  have hc1 : ⌈dt * 327670⌉ ≤ 32767 := Int.ceil_le.mpr (by exact_mod_cast hle)
  have hrnn : (0 : ℚ) ≤ roundFloat32 (dt * 327670) :=
    le_trans (by exact_mod_cast hf0) hlo
  have hfl : ⌊dt * 327670⌋ ≤ ⌊roundFloat32 (dt * 327670)⌋ := Int.le_floor.mpr hlo
  have hfu : ⌊roundFloat32 (dt * 327670)⌋ ≤ ⌈dt * 327670⌉ := by
    have := le_trans (Int.floor_le (roundFloat32 (dt * 327670))) hhi
    exact_mod_cast this
  have hd : damage dt = ⌊roundFloat32 (dt * 327670)⌋ := by
    unfold damage toHealth truncate
    rw [hk, if_pos hrnn]
    exact wrapHealth_inside _ (by omega) (by omega)
  rw [hd]
  exact ⟨rfl, hfl, hfu, by omega, by simp only [initialHealth]; omega⟩

/-- When the exact product `dt * 327670` is a multiple of `1 / 512` it is a
`float32`, and the damage is its integer part. -/
theorem damage_exact (dt : ℚ) (z : Int) (h0 : 0 ≤ dt) (h1 : dt ≤ killTime)
    (hz : dt * 327670 * 512 = (z : ℚ)) : damage dt = ⌊dt * 327670⌋ := by
  rw [(damage_bounds dt h0 h1).1]
  rcases eq_or_lt_of_le h0 with hd | hd
  · subst hd
    simp [roundFloat32]
  · have hle : dt * 327670 ≤ 32767 := by
      have : dt ≤ 1 / 10 := h1
      linarith
    rw [roundFloat32_grid (dt * 327670) z (by positivity) (lt_of_le_of_lt hle (by norm_num)) hz]


/-- The loop body on a dying alien that is not terminal. -/
theorem updateState_dying (m : Math32) (u : Universe) (dt x0 y0 : ℚ) (c : Critter)
    (h0 : c.health ≤ 0) (h1 : deathThreshold < c.health) :
    updateState m u dt x0 y0 c =
      { c with
        Progress := c.Progress + c.fallRate * dt
        Show := true
        Amplitude := c.Amplitude - dt * (1 / amplitudeDieTime)
        health := if c.Amplitude - dt * (1 / amplitudeDieTime) < 0 then deathThreshold
                  else c.health - 1 } := by
  have hw : wrapHealth (c.health - 1) = c.health - 1 := by
    unfold deathThreshold at h1
    exact wrapHealth_inside _ (by omega) (by omega)
  have hn : ¬ (c.health - 1 > 0) := by omega
  have hn0 : ¬ (c.health > 0) := by omega
  simp only [updateState, hn0, if_false, hw, hn]
  split_ifs <;> rfl

/-- The loop body on a terminal alien: the decrement wraps around. -/
theorem updateState_terminal (m : Math32) (u : Universe) (dt x0 y0 : ℚ) (c : Critter)
    (h0 : c.health = deathThreshold) :
    updateState m u dt x0 y0 c =
      { c with
        Progress := c.Progress + c.fallRate * dt
        Show := true
        Amplitude := m.Sqrt (c.Progress + c.fallRate * dt)
        health := initialHealth } := by
  have hw : wrapHealth (c.health - 1) = initialHealth := by
    rw [h0]; decide
  have hn0 : ¬ (c.health > 0) := by rw [h0]; decide
  have hp : initialHealth > 0 := by decide
  simp only [updateState, hn0, if_false, hw, hp, if_true]

/-- The loop body on an alive alien that is caught, for a frame no longer
than `killTime`. -/
theorem updateState_caught (m : Math32) (u : Universe) (dt x0 y0 : ℚ) (c : Critter)
    (h0 : 0 < c.health) (h1 : c.health ≤ initialHealth)
    (hdt0 : 0 ≤ dt) (hdt1 : dt ≤ killTime)
    (hc : (c.Sx - x0) * (c.Sx - x0) + (c.Sy - y0) * (c.Sy - y0) ≤ u.killRadius2) :
    updateState m u dt x0 y0 c =
      if 0 < c.health - damage dt then
        { c with
          Progress := c.Progress + c.fallRate * dt
          Show := true
          Amplitude := m.Sqrt (c.Progress + c.fallRate * dt)
          health := c.health - damage dt }
      else
        { c with
          Progress := c.Progress + c.fallRate * dt
          Show := true
          Amplitude := c.Amplitude - dt * (1 / amplitudeDieTime)
          health := if c.Amplitude - dt * (1 / amplitudeDieTime) < 0 then deathThreshold
                    else -1 } := by
  obtain ⟨-, -, -, hd0, hd1⟩ := damage_bounds dt hdt0 hdt1
  unfold initialHealth at h1 hd1
  have hw : wrapHealth (c.health - damage dt) = c.health - damage dt :=
    wrapHealth_inside _ (by omega) (by omega)
  have hpos : c.health > 0 := h0
  have hdm : toHealth (roundFloat32 (dt * ((initialHealth : ℚ) / killTime))) = damage dt := rfl
  simp only [updateState, hpos, if_true, hc, hdm, hw]
  by_cases hp : 0 < c.health - damage dt
  · have hp1 : ¬ (c.health - damage dt ≤ 0) := by omega
    have hp2 : c.health - damage dt > 0 := hp
    simp only [hp, hp1, hp2, if_true, if_false]
  · have hp1 : c.health - damage dt ≤ 0 := by omega
    have hp2 : ¬ ((-1 : Int) > 0) := by decide
    simp only [hp, hp1, hp2, if_true, if_false]
    split_ifs <;> rfl

/-! ## The sample population, frame by frame -/

/-- One frame on a dying alien of the sample population whose amplitude runs
out: it comes back terminal. -/
theorem updateAlien_dyingAlien (i : Int) (u : Universe) (x0 y0 : ℚ)
    (hx : u.xSize = 640) (hy : u.ySize = 480) :
    updateAlien Math32.sample 1 u (1 / 100) x0 y0 (dyingAlien i) = .ok (spentAlien i) := by
  rw [updateAlien_inside _ 0 _ _ _ _ _ (by simp [dyingAlien]; norm_num)
    (by simp [dyingAlien, hx]; norm_num) (by simp [dyingAlien])
    (by simp [dyingAlien, hy]; norm_num)]
  rw [updateState_dying _ _ _ _ _ _ (by simp [dyingAlien]) (by simp [dyingAlien, deathThreshold])]
  simp [dyingAlien, amplitudeDieTime, spentAlien]
  norm_num

theorem updateLive_sampleZoo :
    updateLive Math32.sample 1 (sampleZoo refCritter (dyingAlien 1) (dyingAlien 2) 3) (1 / 100) =
      .ok (sampleZoo refCritter (spentAlien 1) (spentAlien 2) 3) := by
  simp only [updateLive, updateLiveLoop, sampleZoo, slot, List.getD_cons_zero,
    List.getD_cons_succ, List.set_cons_succ, List.set_cons_zero]
  rw [if_neg (by decide), updateAlien_dyingAlien _ _ _ _ rfl rfl]
  simp only [List.getD_cons_zero, List.getD_cons_succ, List.set_cons_succ, List.set_cons_zero]
  rw [updateAlien_dyingAlien _ _ _ _ rfl rfl]

theorem cullDead_sampleZoo (r : Critter) (hr : r.health = 0) :
    cullDead (sampleZoo r (spentAlien 1) (spentAlien 2) 3) =
      sampleZoo r (spentAlien 2) (spentAlien 1) 2 := by
  simp [cullDead, cullLoop, cullAt, sampleZoo, slot, spentAlien, deathThreshold, hr]

theorem tryBirth_sampleZoo (r a b : Critter) :
    tryBirth Math32.sample Draws.sample (sampleZoo r a b 2) (1 / 100) =
      .ok (sampleZoo r a b 2) := by
  simp [tryBirth, sampleZoo, Draws.sample, MaxCritter]
  norm_num

theorem Update_sampleZoo :
    Update Math32.sample 1 Draws.sample
        (sampleZoo Critter.zero (dyingAlien 1) (dyingAlien 2) 3) (1 / 100) 320 240 =
      .ok (sampleZoo refCritter (spentAlien 2) (spentAlien 1) 2) := by
  have h0 : ({ sampleZoo Critter.zero (dyingAlien 1) (dyingAlien 2) 3 with
      zooStorage := (sampleZoo Critter.zero (dyingAlien 1) (dyingAlien 2) 3).zooStorage.set 0
        { slot (sampleZoo Critter.zero (dyingAlien 1) (dyingAlien 2) 3).zooStorage 0 with
          Sx := ((320 : Int) : ℚ), Sy := ((240 : Int) : ℚ), Amplitude := -1 } } : Universe) =
      sampleZoo refCritter (dyingAlien 1) (dyingAlien 2) 3 := by
    simp [sampleZoo, slot, refCritter]
  simp only [Update]
  rw [if_neg (by decide), h0, updateLive_sampleZoo]
  simp only []
  rw [cullDead_sampleZoo _ rfl, tryBirth_sampleZoo]

/-! ## Ids -/

theorem ids_Init (u : Universe) (width height : Int) (hl : u.zooStorage.length = MaxCritter) :
    ids (Init u width height) = allIds := by
  apply List.ext_getElem
  · simp only [ids, Init, allIds, List.length_map, List.length_mapIdx, List.length_range, hl]
  · intro n h1 h2
    simp only [ids, Init, allIds, List.getElem_map, List.getElem_mapIdx, List.getElem_range]
    rfl

theorem cullLoop_ids (j : Nat) (u : Universe) (hlen : u.zooLen ≤ u.zooStorage.length) :
    List.Perm (ids (cullLoop j u)) (ids u) := by
  obtain ⟨_, _, h, _⟩ := cullLoop_induction
    (fun _ v => List.Perm (ids v) (ids u) ∧ v.zooLen ≤ v.zooStorage.length)
    (fun _ _ _ _ h => h)
    (fun i v hi _ h => ⟨(cullAt_ids_perm i v hi h.2).trans h.1, by
      rw [cullAt_length, cullAt_zooLen]; omega⟩)
    j u ⟨List.Perm.refl _, hlen⟩
  exact h

theorem set_getD_self {α : Type} (d : α) : ∀ (l : List α) (j : Nat), l.set j (l.getD j d) = l := by
  intro l
  induction l with
  | nil => intro j; simp
  | cons x t ih =>
    intro j
    cases j with
    | zero => simp
    | succ j => simp only [List.getD_cons_succ, List.set_cons_succ, ih]

theorem initAlien_id (m : Math32) (d : Draws) (u : Universe) (c : Critter) :
    (initAlien m d u c).id = c.id := rfl

theorem map_id_set_slot (s : List Critter) (k : Nat) (i : Int) :
    (s.set k { slot s k with id := i }).map (fun c => c.id) = (s.map (fun c => c.id)).set k i := by
  rw [List.map_set]

theorem map_id_set_keep (s : List Critter) (j : Nat) (c : Critter)
    (h : c.id = (slot s j).id) :
    (s.set j c).map (fun c => c.id) = s.map (fun c => c.id) := by
  rw [List.map_set, h, ← slot_map_id, set_getD_self]

theorem tryBirth_ids (m : Math32) (d : Draws) (u u' : Universe) (dt : ℚ)
    (hl : u.zooStorage.length = MaxCritter)
    (h : tryBirth m d u dt = .ok u') : List.Perm (ids u') (ids u) := by
  unfold tryBirth at h
  simp only at h
  split_ifs at h with h1 h2 h3 h4 h5 h6
  · cases h; exact List.Perm.refl _
  · cases h; exact List.Perm.refl _
  · cases h
    unfold ids
    dsimp only
    rw [map_id_set_keep _ _ _ (initAlien_id _ _ _ _), map_id_set_slot, map_id_set_slot,
      ← slot_map_id, ← slot_map_id]
    exact perm_swap_entries 0 _ u.zooLen (d.pick + u.zooLen) (by omega)
      (by simp only [List.length_map, hl]; omega)

theorem cullLoop_survivors (j : Nat) (u : Universe) (hlen : u.zooLen ≤ u.zooStorage.length) :
    List.Perm ((cullLoop j u).Zoo.filter survivor) (u.Zoo.filter survivor) := by
  obtain ⟨_, _, h, _⟩ := cullLoop_induction
    (fun _ v => List.Perm (v.Zoo.filter survivor) (u.Zoo.filter survivor) ∧
      v.zooLen ≤ v.zooStorage.length)
    (fun _ _ _ _ h => h)
    (fun i v hi hd h => ⟨(cullAt_survivors i v hi h.2 hd).trans h.1, by
      rw [cullAt_length, cullAt_zooLen]; omega⟩)
    j u ⟨List.Perm.refl _, hlen⟩
  exact h

theorem wellFormed_Init_start (width height : Int) :
    WellFormed (Init Universe.start width height) := by
  simp [WellFormed, Init, Universe.start, MaxCritter]

theorem wellFormed_sampleZoo (r a b : Critter) (n : Nat) (hn : n ≤ MaxCritter) :
    WellFormed (sampleZoo r a b n) := by
  refine ⟨?_, hn⟩
  simp only [sampleZoo, spareSlots, List.length_cons, List.length_map, List.length_range,
    MaxCritter]

/-- Below the population cap, with an admission sample of at most
`dt * birthRate` and a slot draw inside the free slots, `tryBirth` returns
and the live slice is one entry longer. -/
theorem tryBirth_grows (m : Math32) (d : Draws) (u : Universe) (dt : ℚ)
    (h1 : u.maxLive ≤ (MaxCritter : Int) - 1) (h2 : (u.zooLen : Int) - 1 < u.maxLive)
    (h3 : d.birth ≤ dt * u.birthRate) (h4 : d.pick + u.zooLen < MaxCritter) :
    ∃ u', tryBirth m d u dt = .ok u' ∧ u'.zooLen = u.zooLen + 1 := by
  unfold tryBirth
  simp only
  rw [if_neg (by omega), if_neg (by omega), if_neg (by omega), if_neg (not_lt.mpr h3),
    if_neg (by omega), if_neg (by omega)]
  exact ⟨_, rfl, rfl⟩

/-! ## The claims on culling and ids -/

/-- C1 (defect of `cullDead`).  The claim is that after `cullDead`, and so
after `Update`, no slot of the live slice is terminal.  In the sample
population slot 0 is not terminal and the aliens of slots 1 and 2 are both
terminal: `cullDead` moves the terminal alien of the last slot into slot 1
and goes on to slot 2 without looking at slot 1 again, so the live slice of
length 2 it leaves has a terminal alien in slot 1.  The same state comes out
of `Update` on two dying aliens whose amplitudes run out in the same frame. -/
theorem cullDead_leaves_terminal :
    survivor (slot (sampleZoo Critter.zero (spentAlien 1) (spentAlien 2) 3).zooStorage 0) = true ∧
    cullDead (sampleZoo Critter.zero (spentAlien 1) (spentAlien 2) 3) =
      sampleZoo Critter.zero (spentAlien 2) (spentAlien 1) 2 ∧
    Update Math32.sample 1 Draws.sample
        (sampleZoo Critter.zero (dyingAlien 1) (dyingAlien 2) 3) (1 / 100) 320 240 =
      .ok (sampleZoo refCritter (spentAlien 2) (spentAlien 1) 2) ∧
    (1 : Nat) < (sampleZoo refCritter (spentAlien 2) (spentAlien 1) 2).zooLen ∧
    (slot (sampleZoo refCritter (spentAlien 2) (spentAlien 1) 2).zooStorage 1).health
      ≤ deathThreshold :=
  ⟨by simp [survivor, sampleZoo, slot, Critter.zero, deathThreshold],
   cullDead_sampleZoo _ rfl, Update_sampleZoo, by simp [sampleZoo],
   by simp [sampleZoo, slot, spentAlien]⟩

/-- C2.  `Init` gives slot `k` the id `k`, and when the ids of the backing
array are a permutation of `0 .. MaxCritter-1`, they still are after
`cullDead` and after every `tryBirth` that returns, for every population,
`dt` and draws. -/
theorem ids_permutation (m : Math32) (d : Draws) (u : Universe) (dt : ℚ) (width height : Int)
    (hwf : WellFormed u) (hperm : List.Perm (ids u) allIds) :
    ids (Init u width height) = allIds ∧
    List.Perm (ids (cullDead u)) allIds ∧
    ∀ u', tryBirth m d u dt = .ok u' → List.Perm (ids u') allIds :=
  ⟨ids_Init u width height hwf.1,
   (cullLoop_ids 0 u (by rw [hwf.1]; exact hwf.2)).trans hperm,
   fun u' h => (tryBirth_ids m d u u' dt hwf.1 h).trans hperm⟩

/-- Witness of C2 on the population that `Init` leaves: the ids are still a
permutation after `cullDead`, and after a `tryBirth` that admits an alien. -/
theorem ids_permutation_witness :
    List.Perm (ids (cullDead (Init Universe.start 640 480))) allIds ∧
    ∃ u', tryBirth Math32.sample Draws.birthing (Init Universe.start 640 480) 1 = .ok u' ∧
      u'.zooLen = 2 ∧ List.Perm (ids u') allIds := by
  have h := ids_permutation Math32.sample Draws.birthing (Init Universe.start 640 480) 1 640 480
    (wellFormed_Init_start 640 480)
    (by rw [ids_Init _ _ _ (by simp [Universe.start])])
  have hb : ∃ u', tryBirth Math32.sample Draws.birthing (Init Universe.start 640 480) 1 = .ok u' ∧
      u'.zooLen = 2 :=
    tryBirth_grows _ _ _ _ (by simp [Init, Universe.start, MaxCritter])
      (by simp [Init, Universe.start])
      (by simp [Init, Universe.start, Draws.birthing])
      (by simp [Init, Draws.birthing, MaxCritter])
  obtain ⟨u', h1, h2⟩ := hb
  exact ⟨h.2.1, u', h1, h2, h.2.2 u' h1⟩

/-- C3.  `cullDead` keeps every survivor: the records of the live slice with
`health > deathThreshold` are the same before and after, as a multiset of
whole records (every field, the id included), so each of them is still in
the live slice. -/
theorem cullDead_keeps_survivors (u : Universe) (hwf : WellFormed u) :
    List.Perm ((cullDead u).Zoo.filter survivor) (u.Zoo.filter survivor) ∧
    ∀ c, c ∈ u.Zoo → c.health > deathThreshold → c ∈ (cullDead u).Zoo := by
  have hp := cullLoop_survivors 0 u (by rw [hwf.1]; exact hwf.2)
  refine ⟨hp, fun c hc hs => ?_⟩
  have h1 : c ∈ u.Zoo.filter survivor := by
    rw [List.mem_filter]
    exact ⟨hc, by simp [survivor, hs]⟩
  exact (List.mem_filter.mp (hp.symm.subset h1)).1

/-- Witness of C3 on the sample population with a terminal alien in slot 1
and a dying one in slot 2. -/
theorem cullDead_keeps_survivors_witness :
    List.Perm
      ((cullDead (sampleZoo refCritter (spentAlien 1) (dyingAlien 2) 3)).Zoo.filter survivor)
      ((sampleZoo refCritter (spentAlien 1) (dyingAlien 2) 3).Zoo.filter survivor) ∧
    dyingAlien 2 ∈ (cullDead (sampleZoo refCritter (spentAlien 1) (dyingAlien 2) 3)).Zoo := by
  have h := cullDead_keeps_survivors (sampleZoo refCritter (spentAlien 1) (dyingAlien 2) 3)
    (wellFormed_sampleZoo _ _ _ 3 (by decide))
  exact ⟨h.1, h.2 (dyingAlien 2) (by simp [Universe.Zoo, sampleZoo])
    (by simp [dyingAlien, deathThreshold])⟩

/-! ## The claims on `bounce`, and the range of `initAlien` -/

/-- What `bounce` returns, when it returns: the tentative position, which was
inside `[0, limit]`, and the velocity it was given. -/
theorem bounce_ok (fuel : Nat) (s0 v0 limit dt : ℚ) (r : ℚ × ℚ)
    (h : bounce fuel s0 v0 limit dt = .ok r) :
    r = (s0 + v0 * dt, v0) ∧ 0 ≤ s0 + v0 * dt ∧ s0 + v0 * dt ≤ limit ∧ 0 < fuel := by
  unfold bounce at h
  simp only at h
  split_ifs at h with hg
  rw [not_or, not_lt, not_lt] at hg
  cases fuel with
  | zero => simp [bounceLoop] at h
  | succ n =>
    rw [bounceLoop, if_neg (not_lt.mpr hg.1), if_neg (not_lt.mpr hg.2)] at h
    cases h
    exact ⟨rfl, hg.1, hg.2, Nat.succ_pos n⟩

/-- C4 (defect of `bounce`).  The claim is that a tentative position past a
bound is mirrored around that bound with the velocity negated.  From `p = 9`
with `v = 2`, `dt = 1` and `limit = 10` the tentative position is `11`: the
claim gives `(9, -2)`, which is what the loop of `bounce` computes from `11`,
but the guard in front of the loop tests the tentative position and `bounce`
panics.  The same holds below zero, from `p = 1` with `v = -3`. -/
theorem bounce_overshoot_panics (fuel : Nat) :
    bounce fuel 9 2 10 1 = .error .panic ∧
    bounceLoop (fuel + 2) (9 + 2 * 1) 2 10 = .ok (2 * 10 - (9 + 2 * 1), -2) ∧
    bounce fuel 1 (-3) 10 1 = .error .panic ∧
    bounceLoop (fuel + 2) (1 + -3 * 1) (-3) 10 = .ok (-(1 + -3 * 1), - -3) := by
  refine ⟨bounce_outside _ _ _ _ _ (by norm_num), ?_, bounce_outside _ _ _ _ _ (by norm_num), ?_⟩
  · rw [bounceLoop, if_neg (by norm_num), if_pos (by norm_num), bounceLoop,
      if_neg (by norm_num), if_neg (by norm_num)]
  · rw [bounceLoop, if_pos (by norm_num), bounceLoop,
      if_neg (by norm_num), if_neg (by norm_num)]

/-- C5 (defect of `bounce`, the same guard as in C4).  The claim is that
`bounce` panics exactly when the position before the update is outside
`[0, limit]`.  The guard of `bounce` tests the tentative position instead: for
all arguments `bounce` panics exactly when `p + v * dt` is outside
`[0, limit]`.  So from `p = 0`, inside `[0, 10]`, with `v = -1` and `dt = 1` it
panics, and from `p = 11`, outside `[0, 10]`, with `v = -1` and `dt = 1` it
returns `(10, -1)`. -/
theorem bounce_panics_on_tentative (fuel : Nat) (p v limit dt : ℚ) :
    (bounce fuel p v limit dt = .error .panic ↔ (p + v * dt < 0 ∨ limit < p + v * dt)) ∧
    bounce fuel 0 (-1) 10 1 = .error .panic ∧
    bounce (fuel + 1) 11 (-1) 10 1 = .ok (10, -1) := by
  refine ⟨⟨fun h => ?_, bounce_outside fuel p v limit dt⟩,
    bounce_outside _ _ _ _ _ (by norm_num), ?_⟩
  · by_contra hn
    rw [not_or, not_lt, not_lt] at hn
    cases fuel with
    | zero => simp [bounce, bounceLoop, not_lt.mpr hn.1, not_lt.mpr hn.2] at h
    | succ n => rw [bounce_inside n _ _ _ _ hn.1 hn.2] at h; cases h
  · rw [bounce_inside fuel _ _ _ _ (by norm_num) (by norm_num)]
    norm_num

/-- C6.  Whenever `bounce` returns, from a position `p` in `[0, limit]` as
from any other, the position it writes back lies in `[0, limit]` and the
velocity it writes back has the magnitude of `v`; and it does return, on any
fuel but zero, when the tentative position `p + v * dt` is inside
`[0, limit]`. -/
theorem bounce_range (fuel : Nat) (p v limit dt : ℚ) :
    (∀ s' v', bounce fuel p v limit dt = .ok (s', v') →
      0 ≤ s' ∧ s' ≤ limit ∧ |v'| = |v|) ∧
    (0 < fuel → 0 ≤ p + v * dt → p + v * dt ≤ limit →
      ∃ r, bounce fuel p v limit dt = .ok r) := by
  constructor
  · intro s' v' h
    unfold bounce at h
    simp only at h
    split_ifs at h
    exact bounceLoop_range fuel _ _ _ _ _ h
  · intro hf h0 h1
    obtain ⟨n, rfl⟩ := Nat.exists_eq_succ_of_ne_zero (Nat.pos_iff_ne_zero.mp hf)
    exact ⟨_, bounce_inside n p v limit dt h0 h1⟩

/-- Witness of C6: from `p = 5` with `v = 2`, `dt = 1` and `limit = 10`. -/
theorem bounce_range_witness :
    bounce 1 5 2 10 1 = .ok (7, 2) ∧ (0 : ℚ) ≤ 7 ∧ (7 : ℚ) ≤ 10 ∧ |(2 : ℚ)| = |2| := by
  have h : bounce 1 5 2 10 1 = .ok (7, 2) := by
    rw [bounce_inside 0 _ _ _ _ (by norm_num) (by norm_num)]; norm_num
  exact ⟨h, (bounce_range 1 5 2 10 1).1 7 2 h⟩

/-- The range of `initAlien`: on a field of positive width and height set by
`Init`, for every pair of samples in `[0, 1)`, the position of a newborn
satisfies `0 ≤ Sx < width` and `0 ≤ Sy < height`. -/
theorem initAlien_in_field (m : Math32) (d : Draws) (u : Universe) (width height : Int)
    (c : Critter) (hw : 0 < width) (hh : 0 < height)
    (hx0 : 0 ≤ d.posX) (hx1 : d.posX < 1) (hy0 : 0 ≤ d.posY) (hy1 : d.posY < 1) :
    0 ≤ (initAlien m d (Init u width height) c).Sx ∧
    (initAlien m d (Init u width height) c).Sx < (width : ℚ) ∧
    0 ≤ (initAlien m d (Init u width height) c).Sy ∧
    (initAlien m d (Init u width height) c).Sy < (height : ℚ) := by
  have hw' : (0 : ℚ) < (width : ℚ) := by exact_mod_cast hw
  have hh' : (0 : ℚ) < (height : ℚ) := by exact_mod_cast hh
  simp only [initAlien, Init]
  refine ⟨by positivity, ?_, by positivity, ?_⟩
  · nlinarith
  · nlinarith

/-! ## The health of one alien, frame by frame -/

/-- What the loop body returns, when it returns. -/
theorem updateAlien_ok (m : Math32) (fuel : Nat) (u : Universe) (dt x0 y0 : ℚ) (c c' : Critter)
    (h : updateAlien m fuel u dt x0 y0 c = .ok c') :
    c' = updateState m u dt x0 y0 { c with Sx := c.Sx + c.vx * dt, Sy := c.Sy + c.vy * dt } := by
  unfold updateAlien at h
  split at h
  · cases h
  · rename_i sx vx hbx
    split at h
    · cases h
    · rename_i sy vy hby
      obtain ⟨hx, -⟩ := bounce_ok _ _ _ _ _ _ hbx
      obtain ⟨hy, -⟩ := bounce_ok _ _ _ _ _ _ hby
      cases hx
      cases hy
      cases h
      rfl

theorem updateState_Sx (m : Math32) (u : Universe) (dt x0 y0 : ℚ) (c : Critter) :
    (updateState m u dt x0 y0 c).Sx = c.Sx ∧ (updateState m u dt x0 y0 c).Sy = c.Sy := by
  unfold updateState
  simp only
  split_ifs <;> exact ⟨rfl, rfl⟩
/-- The health of an alien along a run in which it is caught on every frame
and never terminal at the start of a frame: a dying alien stays at or below
zero, and an alive one has lost `damage dt` per frame or is at or below zero. -/
theorem runAlien_health (m : Math32) (fuel : Nat) (u : Universe) (dt : ℚ)
    (hdt0 : 0 ≤ dt) (hdt1 : dt ≤ killTime) :
    ∀ (refs : List (ℚ × ℚ)) (c c' : Critter), c.health ≤ initialHealth →
      caughtAll m fuel u dt refs c = true → neverTerminal m fuel u dt refs c = true →
      runAlien m fuel u dt refs c = .ok c' →
      (c.health ≤ 0 → c'.health ≤ 0) ∧
      (0 < c.health → c'.health ≤ 0 ∨ c'.health = c.health - refs.length * damage dt) := by
  intro refs
  induction refs with
  | nil =>
    intro c c' _ _ _ hr
    simp only [runAlien, Except.ok.injEq] at hr
    subst hr
    exact ⟨fun h => h, fun _ => Or.inr (by simp)⟩
  | cons r rest ih =>
    intro c c' hle hc hn hr
    simp only [runAlien, caughtAll, neverTerminal] at hr hc hn
    cases hU : updateAlien m fuel u dt r.1 r.2 c with
    | error e => rw [hU] at hc; simp at hc
    | ok c1 =>
      rw [hU] at hc hn hr
      simp only [Bool.and_eq_true, decide_eq_true_eq] at hc hn hr
      obtain ⟨hdist, hc1⟩ := hc
      obtain ⟨hlive, hn1⟩ := hn
      have hc1eq := updateAlien_ok m fuel u dt r.1 r.2 c c1 hU
      obtain ⟨cm, hcm⟩ : ∃ cm : Critter,
          cm = { c with Sx := c.Sx + c.vx * dt, Sy := c.Sy + c.vy * dt } := ⟨_, rfl⟩
      rw [← hcm] at hc1eq
      have hmh : cm.health = c.health := by rw [hcm]
      obtain ⟨hsx, hsy⟩ := updateState_Sx m u dt r.1 r.2 cm
      rw [← hc1eq] at hsx hsy
      obtain ⟨-, -, -, hd0, hd1⟩ := damage_bounds dt hdt0 hdt1
      have hthr : deathThreshold ≤ 0 := by decide
      have hini : (0 : Int) ≤ initialHealth := by decide
      rcases le_or_lt c.health 0 with hdy | hal
      · -- the alien is dying
        have h1 : c1.health ≤ 0 := by
          rw [hc1eq, updateState_dying m u dt r.1 r.2 cm (by omega) (by omega)]
          simp only
          split_ifs
          · exact hthr
          · omega
        obtain ⟨ihd, -⟩ := ih c1 c' (by omega) hc1 hn1 hr
        exact ⟨fun _ => ihd h1, fun h => absurd h (by omega)⟩
      · -- the alien is alive and caught
        have hcaught : (cm.Sx - r.1) * (cm.Sx - r.1) + (cm.Sy - r.2) * (cm.Sy - r.2)
            ≤ u.killRadius2 := by
          rw [hsx, hsy] at hdist
          exact hdist
        have hst := updateState_caught m u dt r.1 r.2 cm (by omega) (by omega) hdt0 hdt1 hcaught
        rw [← hc1eq, hmh] at hst
        refine ⟨fun h => absurd h (by omega), fun _ => ?_⟩
        by_cases hp : 0 < c.health - damage dt
        · have h1 : c1.health = c.health - damage dt := by
            rw [hst, if_pos hp]
          obtain ⟨-, iha⟩ := ih c1 c' (by omega) hc1 hn1 hr
          rcases iha (by omega) with h2 | h2
          · exact Or.inl h2
          · right
            rw [h2, h1]
            simp only [List.length_cons]
            push_cast
            ring
        · have h1 : c1.health ≤ 0 := by
            rw [hst, if_neg hp]
            simp only
            split_ifs
            · exact hthr
            · decide
          obtain ⟨ihd, -⟩ := ih c1 c' (by omega) hc1 hn1 hr
          exact Or.inl (ihd h1)

/-- The grid of `float32` around a positive `x` with `2 ^ b ≤ x < 2 ^ (b + 1)`
and `-126 ≤ b`: its step is `2 ^ (b - 23)`. -/
theorem roundFloat32_binade (x : ℚ) (b : Int) (hlo : (2 : ℚ) ^ b ≤ x)
    (hhi : x < (2 : ℚ) ^ (b + 1)) (hb : -126 ≤ b) :
    roundFloat32 x = (roundHalfEven (x / 2 ^ (b - 23)) : ℚ) * 2 ^ (b - 23) := by
  have hx : 0 < x := lt_of_lt_of_le (by positivity) hlo
  have hlog : Int.log 2 |x| = b := by
    rw [abs_of_pos hx]
    apply le_antisymm
    · have := (Int.lt_zpow_iff_log_lt (R := ℚ) (b := 2) (by norm_num) (x := b + 1) hx).mp hhi
      omega
    · exact (Int.zpow_le_iff_le_log (R := ℚ) (b := 2) (by norm_num) (x := b) hx).mp hlo
  unfold roundFloat32
  rw [if_neg (ne_of_gt hx)]
  simp only [hlog, max_eq_left hb]

theorem roundHalfEven_up (y : ℚ) (f : Int) (h1 : (f : ℚ) + 1 / 2 < y) (h2 : y < (f : ℚ) + 1) :
    roundHalfEven y = f + 1 := by
  have hf : ⌊y⌋ = f := by
    rw [Int.floor_eq_iff]
    exact ⟨by linarith, h2⟩
  unfold roundHalfEven
  simp only [hf]
  rw [if_neg (by linarith), if_pos (by linarith)]

/-- A frame of `dt = 1/16`: the product `20479.375` is a `float32`. -/
theorem damage_sixteenth : damage (1 / 16) = 20479 := by
  rw [damage_exact _ 10485440 (by norm_num) (by norm_num [killTime]) (by norm_num),
    Int.floor_eq_iff]
  norm_num

/-- A frame of `dt = 6557 / 2 ^ 20`: the product is `2049 - 34 / 2 ^ 20`, the
step of `float32` there is `1 / 2 ^ 12`, and the nearest `float32` is `2049`. -/
theorem damage_rounded : damage (6557 / 1048576) = 2049 := by
  rw [(damage_bounds _ (by norm_num) (by norm_num [killTime])).1,
    roundFloat32_binade _ 11 (by norm_num) (by norm_num) (by norm_num),
    roundHalfEven_up _ 8392703 (by norm_num) (by norm_num), Int.floor_eq_iff]
  norm_num

/-- One frame of the sample field on an alive alien at `(100, 100)` moving
towards the right: the step returns with the alien caught by a reference
entity at `(100, 100)`, and with the health of the caught branch. -/
theorem updateAlien_caughtAlien (dt : ℚ) (c : Critter) (hdt0 : 0 ≤ dt) (hdt1 : dt ≤ killTime)
    (hx : c.Sx = 100) (hy : c.Sy = 100) (hvx : c.vx = 1) (hvy : c.vy = 0)
    (h0 : 0 < c.health) (h1 : c.health ≤ initialHealth) :
    ∃ c', updateAlien Math32.sample 1 (Init Universe.start 640 480) dt 100 100 c = .ok c' ∧
      (c'.Sx - 100) * (c'.Sx - 100) + (c'.Sy - 100) * (c'.Sy - 100)
        ≤ (Init Universe.start 640 480).killRadius2 ∧
      c'.health = if 0 < c.health - damage dt then c.health - damage dt
        else if c.Amplitude - dt * (1 / amplitudeDieTime) < 0 then deathThreshold else -1 := by
  have hk : dt ≤ 1 / 10 := hdt1
  have hc : ((100 : ℚ) + 1 * dt - 100) * (100 + 1 * dt - 100) + (100 + 0 * dt - 100) *
      (100 + 0 * dt - 100) ≤ (Init Universe.start 640 480).killRadius2 := by
    simp only [Init]; norm_num; nlinarith
  refine ⟨_, updateAlien_inside _ 0 _ _ _ _ _ (by rw [hx, hvx]; linarith)
    (by rw [hx, hvx]; simp only [Init]; norm_num; linarith) (by rw [hy, hvy]; norm_num)
    (by rw [hy, hvy]; simp only [Init]; norm_num), ?_, ?_⟩
  · obtain ⟨hsx, hsy⟩ := updateState_Sx Math32.sample (Init Universe.start 640 480) dt 100 100
      { c with Sx := c.Sx + c.vx * dt, Sy := c.Sy + c.vy * dt }
    rw [hsx, hsy]
    simp only [hx, hy, hvx, hvy]
    exact hc
  · rw [updateState_caught _ _ _ _ _ _ (by simp only; omega) (by simpa using h1) hdt0 hdt1
      (by simp only [hx, hy, hvx, hvy]; exact hc)]
    split_ifs <;> rfl

/-- C9, counterexample.  Three caught frames on the 640 by 480 field, each on
an alive alien at `(100, 100)` next to a reference entity at `(100, 100)`.
With `dt = 1/16` and health `initialHealth` the product
`dt * initialHealth / killTime` is `20479.375`, itself a `float32`: the claim
gives health `12287.625`, and the step leaves `12288`.  With
`dt = 6557 / 2 ^ 20` and health `2049` the exact product is
`2049 - 34 / 2 ^ 20`, so the claimed health is positive, but the `float32`
product is `2049` and the step leaves `-1`.  With `dt = 1/16`, health `1` and
amplitude `1/64` the claimed health is `-1`, but the amplitude falls below
zero in the same step, which leaves `deathThreshold`. -/
theorem damage_differs :
    ((0 : ℚ) ≤ 1 / 16 ∧ (1 / 16 : ℚ) ≤ killTime ∧ 0 < (aliveAlien initialHealth).health ∧
      (0 : ℚ) < (initialHealth : ℚ) - 1 / 16 * initialHealth / killTime ∧
      ∃ c', updateAlien Math32.sample 1 (Init Universe.start 640 480) (1 / 16) 100 100
          (aliveAlien initialHealth) = .ok c' ∧
        (c'.Sx - 100) * (c'.Sx - 100) + (c'.Sy - 100) * (c'.Sy - 100)
          ≤ (Init Universe.start 640 480).killRadius2 ∧
        c'.health = 12288 ∧
        (c'.health : ℚ) ≠ (initialHealth : ℚ) - 1 / 16 * initialHealth / killTime) ∧
    ((0 : ℚ) ≤ 6557 / 1048576 ∧ (6557 / 1048576 : ℚ) ≤ killTime ∧
      0 < (aliveAlien 2049).health ∧
      (0 : ℚ) < (2049 : ℚ) - 6557 / 1048576 * initialHealth / killTime ∧
      ∃ c', updateAlien Math32.sample 1 (Init Universe.start 640 480) (6557 / 1048576) 100 100
          (aliveAlien 2049) = .ok c' ∧
        (c'.Sx - 100) * (c'.Sx - 100) + (c'.Sy - 100) * (c'.Sy - 100)
          ≤ (Init Universe.start 640 480).killRadius2 ∧
        c'.health = -1) ∧
    ((1 : ℚ) - 1 / 16 * initialHealth / killTime ≤ 0 ∧
      ∃ c', updateAlien Math32.sample 1 (Init Universe.start 640 480) (1 / 16) 100 100
          { aliveAlien 1 with Amplitude := 1 / 64 } = .ok c' ∧
        (c'.Sx - 100) * (c'.Sx - 100) + (c'.Sy - 100) * (c'.Sy - 100)
          ≤ (Init Universe.start 640 480).killRadius2 ∧
        c'.health = deathThreshold ∧ c'.health ≠ -1) := by
  refine ⟨?_, ?_, ?_⟩
  · obtain ⟨c', hU, hc, hh⟩ := updateAlien_caughtAlien (1 / 16) (aliveAlien initialHealth)
      (by norm_num) (by norm_num [killTime]) rfl rfl rfl rfl (by decide) (le_refl _)
    rw [damage_sixteenth] at hh
    have hh' : c'.health = 12288 := by rw [hh]; decide
    refine ⟨by norm_num, by norm_num [killTime], by decide,
      by norm_num [initialHealth, killTime], c', hU, hc, hh', ?_⟩
    rw [hh']
    norm_num [initialHealth, killTime]
  · obtain ⟨c', hU, hc, hh⟩ := updateAlien_caughtAlien (6557 / 1048576) (aliveAlien 2049)
      (by norm_num) (by norm_num [killTime]) rfl rfl rfl rfl (by decide) (by decide)
    rw [damage_rounded] at hh
    have hh' : c'.health = -1 := by
      rw [hh, if_neg (by decide), if_neg (by simp only [aliveAlien, amplitudeDieTime]; norm_num)]
    exact ⟨by norm_num, by norm_num [killTime], by decide,
      by norm_num [initialHealth, killTime], c', hU, hc, hh'⟩
  · obtain ⟨c', hU, hc, hh⟩ := updateAlien_caughtAlien (1 / 16)
      { aliveAlien 1 with Amplitude := 1 / 64 }
      (by norm_num) (by norm_num [killTime]) rfl rfl rfl rfl (by decide) (by decide)
    rw [damage_sixteenth] at hh
    have hh' : c'.health = deathThreshold := by
      rw [hh, if_neg (by decide), if_pos (by simp only [amplitudeDieTime]; norm_num)]
    refine ⟨by norm_num [initialHealth, killTime], c', hU, hc, hh', ?_⟩
    rw [hh']
    decide

/-- C9, amended.  For an alive alien of health `h` (an `int16`, so at most
`initialHealth`) and a frame `0 ≤ dt ≤ killTime`, let `D = damage dt` be the
integer part of the `float32` nearest to `dt * (initialHealth / killTime)`;
it lies between the two integers around the exact product.  Whenever the
step returns with the alien caught, it has set `Show = true`; the new health
is `h - D` when `h - D` is positive; otherwise it is `-1` when the amplitude
`Amplitude - dt / amplitudeDieTime` is not negative and `deathThreshold`
when it is.  The step does return, on any fuel but zero, when both tentative
coordinates are inside the field. -/
theorem damage_step (m : Math32) (fuel : Nat) (u : Universe) (dt x0 y0 : ℚ) (c : Critter)
    (h0 : 0 < c.health) (h1 : c.health ≤ initialHealth) (hdt0 : 0 ≤ dt) (hdt1 : dt ≤ killTime) :
    (damage dt = truncate (roundFloat32 (dt * ((initialHealth : ℚ) / killTime))) ∧
      ⌊dt * initialHealth / killTime⌋ ≤ damage dt ∧
      damage dt ≤ ⌈dt * initialHealth / killTime⌉) ∧
    (∀ c', updateAlien m fuel u dt x0 y0 c = .ok c' →
      (c'.Sx - x0) * (c'.Sx - x0) + (c'.Sy - y0) * (c'.Sy - y0) ≤ u.killRadius2 →
      c'.Show = true ∧
      (0 < c.health - damage dt → c'.health = c.health - damage dt) ∧
      (c.health - damage dt ≤ 0 →
        c'.health = if c.Amplitude - dt / amplitudeDieTime < 0 then deathThreshold else -1)) ∧
    (0 < fuel → 0 ≤ c.Sx + c.vx * dt → c.Sx + c.vx * dt ≤ u.xSize - 1 →
      0 ≤ c.Sy + c.vy * dt → c.Sy + c.vy * dt ≤ u.ySize - 1 →
      ∃ c', updateAlien m fuel u dt x0 y0 c = .ok c') := by
  refine ⟨?_, ?_, ?_⟩
  · obtain ⟨hd, hlo, hhi, hd0, -⟩ := damage_bounds dt hdt0 hdt1
    have hk : dt * ((initialHealth : ℚ) / killTime) = dt * 327670 := by
      simp only [initialHealth, killTime]; norm_num
    have hk' : dt * (initialHealth : ℚ) / killTime = dt * 327670 := by
      simp only [initialHealth, killTime]; norm_num; ring
    rw [hk, hk']
    refine ⟨?_, hlo, hhi⟩
    have hnn : (0 : ℚ) ≤ roundFloat32 (dt * 327670) := by
      rw [hd] at hd0
      by_contra hneg
      have hlt : roundFloat32 (dt * 327670) < ((0 : Int) : ℚ) := by
        push_neg at hneg
        exact_mod_cast hneg
      have := Int.floor_lt.mpr hlt
      omega
    rw [hd, truncate, if_pos hnn]
  · intro c' hU hdist
    have hc' := updateAlien_ok m fuel u dt x0 y0 c c' hU
    obtain ⟨cm, hcm⟩ : ∃ cm : Critter,
        cm = { c with Sx := c.Sx + c.vx * dt, Sy := c.Sy + c.vy * dt } := ⟨_, rfl⟩
    rw [← hcm] at hc'
    have hmh : cm.health = c.health := by rw [hcm]
    have hma : cm.Amplitude = c.Amplitude := by rw [hcm]
    obtain ⟨hsx, hsy⟩ := updateState_Sx m u dt x0 y0 cm
    rw [← hc'] at hsx hsy
    rw [hsx, hsy] at hdist
    have hst := updateState_caught m u dt x0 y0 cm (by omega) (by omega) hdt0 hdt1 hdist
    rw [← hc', hmh, hma] at hst
    have hamp : dt * (1 / amplitudeDieTime) = dt / amplitudeDieTime := by ring
    refine ⟨?_, fun hp => ?_, fun hp => ?_⟩
    · rw [hst]; split_ifs <;> rfl
    · rw [hst, if_pos hp]
    · rw [hst, if_neg (by omega), hamp]
  · intro hf hx0 hx1 hy0 hy1
    obtain ⟨n, rfl⟩ := Nat.exists_eq_succ_of_ne_zero (Nat.pos_iff_ne_zero.mp hf)
    exact ⟨_, updateAlien_inside m n u dt x0 y0 c hx0 hx1 hy0 hy1⟩

/-- Witness of the amended C9: the alien of health `2049` and a frame of
`dt = 6557 / 2 ^ 20` on the 640 by 480 field, which takes `2049` from it. -/
theorem damage_step_witness :
    damage (6557 / 1048576) = 2049 ∧
    ∃ c', updateAlien Math32.sample 1 (Init Universe.start 640 480) (6557 / 1048576) 100 100
        (aliveAlien 2049) = .ok c' ∧ c'.Show = true ∧ c'.health = -1 := by
  have h := damage_step Math32.sample 1 (Init Universe.start 640 480) (6557 / 1048576) 100 100
    (aliveAlien 2049) (by decide) (by decide) (by norm_num) (by norm_num [killTime])
  obtain ⟨c', hc'⟩ := h.2.2 (by decide) (by simp [aliveAlien]; norm_num)
    (by simp [aliveAlien, Init]; norm_num) (by simp [aliveAlien])
    (by simp [aliveAlien, Init]; norm_num)
  have hm := updateAlien_ok _ _ _ _ _ _ _ _ hc'
  obtain ⟨hsx, hsy⟩ := updateState_Sx Math32.sample (Init Universe.start 640 480)
    (6557 / 1048576) 100 100
    { aliveAlien 2049 with Sx := (aliveAlien 2049).Sx + (aliveAlien 2049).vx * (6557 / 1048576),
                           Sy := (aliveAlien 2049).Sy + (aliveAlien 2049).vy * (6557 / 1048576) }
  rw [← hm] at hsx hsy
  obtain ⟨hs, -, hh⟩ := h.2.1 c' hc' (by rw [hsx, hsy]; simp [aliveAlien, Init]; norm_num)
  refine ⟨damage_rounded, c', hc', hs, ?_⟩
  rw [hh (by rw [damage_rounded]; decide), if_neg (by simp [aliveAlien, amplitudeDieTime]; norm_num)]

/-- C10, counterexample.  A terminal alien (`health = deathThreshold`) that
`cullDead` has left in the live slice: the claim gives it amplitude
`-1/250 - (1/100)/2 < 0` and so health `deathThreshold`, but the decrement
wraps around, and the step leaves it alive with health `initialHealth` and
the amplitude computed from its progress. -/
theorem terminal_alien_revives :
    (spentAlien 1).health ≤ 0 ∧
    (spentAlien 1).Amplitude - (1 / 100) / amplitudeDieTime < 0 ∧
    ∃ c', updateAlien Math32.sample 1 (sampleZoo refCritter (spentAlien 1) (spentAlien 2) 3)
        (1 / 100) 320 240 (spentAlien 1) = .ok c' ∧
      c'.health = initialHealth ∧ c'.health ≠ deathThreshold ∧
      c'.Amplitude ≠ (spentAlien 1).Amplitude - (1 / 100) / amplitudeDieTime := by
  have hU := updateAlien_inside Math32.sample 0 (sampleZoo refCritter (spentAlien 1) (spentAlien 2) 3)
    (1 / 100) 320 240 (spentAlien 1) (by simp [spentAlien]; norm_num)
    (by simp [spentAlien, sampleZoo]; norm_num) (by simp [spentAlien])
    (by simp [spentAlien, sampleZoo]; norm_num)
  rw [updateState_terminal _ _ _ _ _ _ (by simp [spentAlien])] at hU
  refine ⟨by simp [spentAlien, deathThreshold], by simp [spentAlien, amplitudeDieTime]; norm_num,
    _, hU, rfl, by decide, ?_⟩
  simp [spentAlien, Math32.sample, amplitudeDieTime]
  norm_num

/-- C10, amended.  For an alien with `deathThreshold < health ≤ 0` and every
`dt`, whenever the step returns it has set `Show = true`, the amplitude to
`Amplitude - dt / amplitudeDieTime`, and the health to `deathThreshold` if the
new amplitude is negative and to `health - 1` otherwise.  The step does
return, on any fuel but zero, when both tentative coordinates are inside the
field. -/
theorem dying_step (m : Math32) (fuel : Nat) (u : Universe) (dt x0 y0 : ℚ) (c : Critter)
    (h0 : c.health ≤ 0) (h1 : deathThreshold < c.health) :
    (∀ c', updateAlien m fuel u dt x0 y0 c = .ok c' →
      c'.Show = true ∧
      c'.Amplitude = c.Amplitude - dt / amplitudeDieTime ∧
      c'.health = if c.Amplitude - dt / amplitudeDieTime < 0 then deathThreshold
                  else c.health - 1) ∧
    (0 < fuel → 0 ≤ c.Sx + c.vx * dt → c.Sx + c.vx * dt ≤ u.xSize - 1 →
      0 ≤ c.Sy + c.vy * dt → c.Sy + c.vy * dt ≤ u.ySize - 1 →
      ∃ c', updateAlien m fuel u dt x0 y0 c = .ok c') := by
  constructor
  · intro c' hU
    have hc' := updateAlien_ok m fuel u dt x0 y0 c c' hU
    have hamp : dt * (1 / amplitudeDieTime) = dt / amplitudeDieTime := by ring
    rw [updateState_dying m u dt x0 y0
      { c with Sx := c.Sx + c.vx * dt, Sy := c.Sy + c.vy * dt } h0 h1, hamp] at hc'
    rw [hc']
    exact ⟨rfl, rfl, rfl⟩
  · intro hf hx0 hx1 hy0 hy1
    obtain ⟨n, rfl⟩ := Nat.exists_eq_succ_of_ne_zero (Nat.pos_iff_ne_zero.mp hf)
    exact ⟨_, updateAlien_inside m n u dt x0 y0 c hx0 hx1 hy0 hy1⟩

/-- Witness of the amended C10: a dying alien of the sample population, whose
amplitude runs out in the frame. -/
theorem dying_step_witness :
    updateAlien Math32.sample 1 (sampleZoo refCritter (dyingAlien 1) (dyingAlien 2) 3)
      (1 / 100) 320 240 (dyingAlien 1) = .ok (spentAlien 1) ∧
    (spentAlien 1).Show = true ∧
    (spentAlien 1).Amplitude = (dyingAlien 1).Amplitude - (1 / 100) / amplitudeDieTime ∧
    (spentAlien 1).health =
      if (dyingAlien 1).Amplitude - (1 / 100) / amplitudeDieTime < 0 then deathThreshold
      else (dyingAlien 1).health - 1 :=
  ⟨updateAlien_dyingAlien 1 _ 320 240 rfl rfl,
   (dying_step Math32.sample 1 (sampleZoo refCritter (dyingAlien 1) (dyingAlien 2) 3)
      (1 / 100) 320 240 (dyingAlien 1) (by simp [dyingAlien])
      (by simp [dyingAlien, deathThreshold])).1 (spentAlien 1)
      (updateAlien_dyingAlien 1 _ 320 240 rfl rfl)⟩

/-- A run on which the alien is caught on every frame returns. -/
theorem runAlien_returns (m : Math32) (fuel : Nat) (u : Universe) (dt : ℚ) :
    ∀ (refs : List (ℚ × ℚ)) (c : Critter), caughtAll m fuel u dt refs c = true →
      ∃ c', runAlien m fuel u dt refs c = .ok c' := by
  intro refs
  induction refs with
  | nil => intro c _; exact ⟨c, rfl⟩
  | cons r rest ih =>
    intro c hc
    simp only [runAlien, caughtAll] at hc ⊢
    cases hU : updateAlien m fuel u dt r.1 r.2 c with
    | error e => rw [hU] at hc; simp at hc
    | ok c1 =>
      rw [hU] at hc
      simp only [Bool.and_eq_true] at hc
      exact ih c1 hc.2

/-- One frame of the sample field on an alive alien moving along `y = 100`
towards the right, caught by a reference entity at `(100, 100)` and left
alive. -/
theorem updateAlien_aliveAlien (dt : ℚ) (c : Critter) (hdt0 : 0 ≤ dt) (hdt1 : dt ≤ killTime)
    (hx0 : 100 ≤ c.Sx) (hx1 : c.Sx ≤ 101) (hy : c.Sy = 100) (hvx : c.vx = 1) (hvy : c.vy = 0)
    (h1 : c.health ≤ initialHealth) (hp : 0 < c.health - damage dt) :
    ∃ c', updateAlien Math32.sample 1 (Init Universe.start 640 480) dt 100 100 c = .ok c' ∧
      c'.Sx = c.Sx + dt ∧ c'.Sy = 100 ∧ c'.vx = 1 ∧ c'.vy = 0 ∧
      c'.health = c.health - damage dt := by
  obtain ⟨-, -, -, hd0, -⟩ := damage_bounds dt hdt0 hdt1
  have hk : dt ≤ 1 / 10 := hdt1
  refine ⟨_, updateAlien_inside _ 0 _ _ _ _ _ (by rw [hvx]; linarith)
    (by rw [hvx]; simp only [Init]; norm_num; linarith) (by rw [hy, hvy]; norm_num)
    (by rw [hy, hvy]; simp only [Init]; norm_num), ?_⟩
  rw [updateState_caught _ _ _ _ _ _ (by simp only; omega) (by simpa using h1) hdt0 hdt1
    (by simp only [hy, hvx, hvy, Init]; norm_num; nlinarith)]
  simp only [if_pos hp, hy, hvx, hvy]
  norm_num

theorem damage_twentieth : damage (1 / 20) = 16383 := by
  rw [damage_exact _ 8388352 (by norm_num) (by norm_num [killTime]) (by norm_num),
    Int.floor_eq_iff]
  norm_num

/-- A frame of a run on which the step returns: the run goes on from the
critter the step returns. -/
theorem runAlien_step (m : Math32) (fuel : Nat) (u : Universe) (dt x y : ℚ)
    (rest : List (ℚ × ℚ)) (c c1 : Critter) (h : updateAlien m fuel u dt x y c = .ok c1) :
    runAlien m fuel u dt ((x, y) :: rest) c = runAlien m fuel u dt rest c1 := by
  simp only [runAlien, h]

/-- A frame of a run on which the step returns: the alien is caught on every
frame when it is caught after this one and on every later frame. -/
theorem caughtAll_step (m : Math32) (fuel : Nat) (u : Universe) (dt x y : ℚ)
    (rest : List (ℚ × ℚ)) (c c1 : Critter) (h : updateAlien m fuel u dt x y c = .ok c1) :
    caughtAll m fuel u dt ((x, y) :: rest) c =
      (decide ((c1.Sx - x) * (c1.Sx - x) + (c1.Sy - y) * (c1.Sy - y) ≤ u.killRadius2)
        && caughtAll m fuel u dt rest c1) := by
  simp only [caughtAll, h]

/-- C8, counterexample.  With `dt = 1/20` an alien that starts at
`initialHealth` and is caught on both frames loses `16383` on each of them:
after `n = 2` steps `n * dt = killTime`, and its health is `1`. -/
theorem kill_takes_longer :
    (0 : ℚ) < 1 / 20 ∧ (1 / 20 : ℚ) ≤ killTime ∧ killTime ≤ ((2 : Nat) : ℚ) * (1 / 20) ∧
    caughtAll Math32.sample 1 (Init Universe.start 640 480) (1 / 20)
      [(100, 100), (100, 100)] (aliveAlien initialHealth) = true ∧
    ∃ c', runAlien Math32.sample 1 (Init Universe.start 640 480) (1 / 20)
        [(100, 100), (100, 100)] (aliveAlien initialHealth) = .ok c' ∧ c'.health = 1 := by
  have hk : (1 / 20 : ℚ) ≤ killTime := by norm_num [killTime]
  obtain ⟨c1, h1, hx1, hy1, hvx1, hvy1, hh1⟩ :=
    updateAlien_aliveAlien (1 / 20) (aliveAlien initialHealth) (by norm_num) hk
      (by simp [aliveAlien]) (by simp [aliveAlien]; norm_num) rfl rfl rfl (by simp [aliveAlien])
      (by rw [damage_twentieth]; decide)
  have hx1' : c1.Sx = 100 + 1 / 20 := hx1
  have hh1' : c1.health = 16384 := by rw [hh1, damage_twentieth]; decide
  obtain ⟨c2, h2, hx2, hy2, -, -, hh2⟩ :=
    updateAlien_aliveAlien (1 / 20) c1 (by norm_num) hk
      (by rw [hx1']; norm_num) (by rw [hx1']; norm_num) hy1 hvx1 hvy1
      (by rw [hh1']; decide) (by rw [hh1', damage_twentieth]; decide)
  refine ⟨by norm_num, hk, by norm_num [killTime], ?_, c2, ?_, ?_⟩
  · rw [caughtAll_step _ _ _ _ _ _ _ _ _ h1, caughtAll_step _ _ _ _ _ _ _ _ _ h2]
    simp only [hx2, hy2, hx1', hy1, Init, caughtAll]
    norm_num
  · rw [runAlien_step _ _ _ _ _ _ _ _ _ h1, runAlien_step _ _ _ _ _ _ _ _ _ h2, runAlien]
  · rw [hh2, hh1', damage_twentieth]; decide
/-- With both tentative coordinates inside the field the loop body returns,
leaving the alien at its tentative position. -/
theorem updateAlien_position (m : Math32) (n : Nat) (u : Universe) (dt x0 y0 : ℚ) (c : Critter)
    (hx0 : 0 ≤ c.Sx + c.vx * dt) (hx1 : c.Sx + c.vx * dt ≤ u.xSize - 1)
    (hy0 : 0 ≤ c.Sy + c.vy * dt) (hy1 : c.Sy + c.vy * dt ≤ u.ySize - 1) :
    ∃ c', updateAlien m (n + 1) u dt x0 y0 c = .ok c' ∧
      c'.Sx = c.Sx + c.vx * dt ∧ c'.Sy = c.Sy + c.vy * dt := by
  obtain ⟨hsx, hsy⟩ := updateState_Sx m u dt x0 y0
    { c with Sx := c.Sx + c.vx * dt, Sy := c.Sy + c.vy * dt }
  exact ⟨_, updateAlien_inside m n u dt x0 y0 c hx0 hx1 hy0 hy1, hsx, hsy⟩

/-- C8, amended.  For a constant step `0 < dt ≤ killTime`, an alien that
starts at `initialHealth`, is caught on every frame and is not terminal at the
start of any frame has health `≤ 0` after any number `n` of consecutive steps
with `n * damage dt ≥ initialHealth`, where `damage dt` is the integer part of
the `float32` product `dt * (initialHealth / killTime)` that each caught frame
subtracts. -/
theorem kill_after_damage (m : Math32) (fuel : Nat) (u : Universe) (dt : ℚ)
    (refs : List (ℚ × ℚ)) (c : Critter)
    (hdt0 : 0 < dt) (hdt1 : dt ≤ killTime) (hc : c.health = initialHealth)
    (hcaught : caughtAll m fuel u dt refs c = true)
    (hlive : neverTerminal m fuel u dt refs c = true)
    (hn : initialHealth ≤ refs.length * damage dt) :
    ∃ c', runAlien m fuel u dt refs c = .ok c' ∧ c'.health ≤ 0 := by
  obtain ⟨c', hr⟩ := runAlien_returns m fuel u dt refs c hcaught
  refine ⟨c', hr, ?_⟩
  obtain ⟨-, h⟩ := runAlien_health m fuel u dt hdt0.le hdt1 refs c c' hc.le hcaught hlive hr
  rcases h (by rw [hc]; decide) with h1 | h1
  · exact h1
  · rw [h1, hc]; omega

/-- Witness of the amended C8: one frame of `dt = killTime` on the 640 by 480
field. -/
theorem kill_after_damage_witness :
    ∃ c', runAlien Math32.sample 1 (Init Universe.start 640 480) (1 / 10) [(100, 100)]
      (aliveAlien initialHealth) = .ok c' ∧ c'.health ≤ 0 := by
  have hd : damage (1 / 10) = 32767 := by
    rw [damage_exact _ 16776704 (by norm_num) (by norm_num [killTime]) (by norm_num),
      Int.floor_eq_iff]
    norm_num
  obtain ⟨c1, h1, hx1, hy1⟩ := updateAlien_position Math32.sample 0
    (Init Universe.start 640 480) (1 / 10) 100 100 (aliveAlien initialHealth)
    (by simp [aliveAlien]; norm_num) (by simp [aliveAlien, Init]; norm_num)
    (by simp [aliveAlien]) (by simp [aliveAlien, Init]; norm_num)
  refine kill_after_damage Math32.sample 1 (Init Universe.start 640 480) (1 / 10) [(100, 100)]
    (aliveAlien initialHealth) (by norm_num) (by norm_num [killTime]) rfl ?_ ?_ ?_
  · simp only [caughtAll, h1]
    simp only [hx1, hy1, aliveAlien, Init]
    norm_num
  · simp only [neverTerminal, h1]
    decide
  · rw [hd]; decide

/-! ## `tryBirth`, case by case -/

/-- The only fault of `tryBirth` is a panic, and it panics exactly on one of
its two tests when the slot draw is inside the free slots. -/
theorem tryBirth_panic_iff (m : Math32) (d : Draws) (u : Universe) (dt : ℚ)
    (hpick : u.zooLen < MaxCritter → d.pick < MaxCritter - u.zooLen) :
    (tryBirth m d u dt = .error .panic ↔
      (u.maxLive > (MaxCritter : Int) - 1 ∨ (u.zooLen : Int) - 1 > u.maxLive)) ∧
    (∀ e, tryBirth m d u dt = .error e → e = .panic) := by
  unfold tryBirth
  simp only
  split_ifs with h1 h2 h3 h4 h5 h6
  · exact ⟨⟨fun _ => Or.inl h1, fun _ => rfl⟩, fun e h => by cases h; rfl⟩
  · exact ⟨⟨fun _ => Or.inr h2, fun _ => rfl⟩, fun e h => by cases h; rfl⟩
  · exact ⟨⟨fun h => (by cases h), fun h => (by omega)⟩, fun e h => (by cases h)⟩
  · exact ⟨⟨fun h => (by cases h), fun h => (by omega)⟩, fun e h => (by cases h)⟩
  · exfalso
    simp only [MaxCritter] at h1 h5
    omega
  · exfalso
    simp only [MaxCritter] at h1 h5 h6 hpick
    omega
  · exact ⟨⟨fun h => (by cases h), fun h => (by omega)⟩, fun e h => (by cases h)⟩

/-- What a `tryBirth` that returns has done: either nothing, or it has
admitted an alien into slot `zooLen`, initialised by `initAlien`, and left
every slot below it and every other package variable as they were. -/
theorem tryBirth_ok_cases (m : Math32) (d : Draws) (u u' : Universe) (dt : ℚ)
    (hl : u.zooStorage.length = MaxCritter)
    (h : tryBirth m d u dt = .ok u') :
    (u' = u ∧ (u.zooLen : Int) - 1 ≤ u.maxLive ∧
      (u.maxLive ≤ (u.zooLen : Int) - 1 ∨ dt * u.birthRate < d.birth)) ∨
    ((u.zooLen : Int) - 1 < u.maxLive ∧ u.maxLive ≤ (MaxCritter : Int) - 1 ∧
      d.birth ≤ dt * u.birthRate ∧ d.pick + u.zooLen < MaxCritter ∧
      u'.zooLen = u.zooLen + 1 ∧ u'.zooStorage.length = MaxCritter ∧
      u'.maxLive = u.maxLive ∧ u'.birthRate = u.birthRate ∧
      u'.velocityMax = u.velocityMax ∧ u'.xSize = u.xSize ∧ u'.ySize = u.ySize ∧
      u'.killRadius2 = u.killRadius2 ∧
      (∀ i, i < u.zooLen → slot u'.zooStorage i = slot u.zooStorage i) ∧
      ∃ c, slot u'.zooStorage u.zooLen = initAlien m d u c) := by
  unfold tryBirth at h
  simp only at h
  split_ifs at h with h1 h2 h3 h4 h5 h6
  · cases h; exact Or.inl ⟨rfl, by omega, Or.inl (by omega)⟩
  · cases h; exact Or.inl ⟨rfl, by omega, Or.inr h4⟩
  · cases h
    right
    have hj : u.zooLen < MaxCritter := by omega
    refine ⟨by omega, by omega, not_lt.mp h4, by omega, rfl, by simp [hl], rfl, rfl, rfl,
      rfl, rfl, rfl, fun i hi => ?_, ?_⟩
    · simp only
      rw [slot_set_ne _ _ _ _ (by omega), slot_set_ne _ _ _ _ (by omega),
        slot_set_ne _ _ _ _ (by omega)]
    · simp only
      rw [slot_set_self _ _ _ (by simp [hl]; omega)]
      exact ⟨_, rfl⟩

/-- The live length after a `tryBirth` that returns, whatever the backing
array. -/
theorem tryBirth_zooLen (m : Math32) (d : Draws) (u u' : Universe) (dt : ℚ)
    (h : tryBirth m d u dt = .ok u') :
    u'.maxLive = u.maxLive ∧ (u.zooLen : Int) - 1 ≤ u.maxLive ∧
    (u'.zooLen = u.zooLen ∨ (u'.zooLen = u.zooLen + 1 ∧ (u.zooLen : Int) - 1 < u.maxLive)) := by
  unfold tryBirth at h
  simp only at h
  split_ifs at h with h1 h2 h3 h4 h5 h6
  · cases h; exact ⟨rfl, by omega, Or.inl rfl⟩
  · cases h; exact ⟨rfl, by omega, Or.inl rfl⟩
  · cases h; exact ⟨rfl, by omega, Or.inr ⟨rfl, by omega⟩⟩

/-- `Update` on a population with its reference entity, once `updateLive` has
returned: what is left is `cullDead` and `tryBirth`. -/
theorem Update_of_updateLive (m : Math32) (fuel : Nat) (d : Draws) (u u1 : Universe) (dt : ℚ)
    (selfX selfY : Int) (h1 : 1 ≤ u.zooLen)
    (hl : updateLive m fuel
      { u with zooStorage := (u.zooStorage.set 0
          { slot u.zooStorage 0 with Sx := (selfX : ℚ), Sy := (selfY : ℚ), Amplitude := -1 }) }
      dt = .ok u1) :
    Update m fuel d u dt selfX selfY = tryBirth m d (cullDead u1) dt := by
  unfold Update
  rw [if_neg (by omega)]
  simp only [hl]

/-- Outside its two panics `tryBirth` returns. -/
theorem tryBirth_returns (m : Math32) (d : Draws) (u : Universe) (dt : ℚ)
    (hpick : u.zooLen < MaxCritter → d.pick < MaxCritter - u.zooLen)
    (hn : ¬ (u.maxLive > (MaxCritter : Int) - 1 ∨ (u.zooLen : Int) - 1 > u.maxLive)) :
    ∃ u', tryBirth m d u dt = .ok u' := by
  obtain ⟨hiff, honly⟩ := tryBirth_panic_iff m d u dt hpick
  cases hr : tryBirth m d u dt with
  | ok u' => exact ⟨u', rfl⟩
  | error e =>
    have he := honly e hr
    subst he
    exact absurd (hiff.mp hr) hn

/-! ## The claims on `tryBirth` and `ImageIndex` -/

/-- C11.  With the slot draw inside the free slots, as `rand.Intn` gives it,
`tryBirth` panics if and only if `maxLive > MaxCritter-1` or the alien count
`len(Zoo)-1` exceeds `maxLive`.  In every other case it returns, for every
`dt` and every draw, and when it goes on to admit there is a free slot: the
index `pick + len(Zoo)` it uses lies in `[len(Zoo), MaxCritter)`. -/
theorem tryBirth_fails_iff (m : Math32) (d : Draws) (u : Universe) (dt : ℚ)
    (hpick : u.zooLen < MaxCritter → d.pick < MaxCritter - u.zooLen) :
    (tryBirth m d u dt = .error .panic ↔
      (u.maxLive > (MaxCritter : Int) - 1 ∨ (u.zooLen : Int) - 1 > u.maxLive)) ∧
    (¬ (u.maxLive > (MaxCritter : Int) - 1 ∨ (u.zooLen : Int) - 1 > u.maxLive) →
      (∃ u', tryBirth m d u dt = .ok u') ∧
      ((u.zooLen : Int) - 1 < u.maxLive →
        u.zooLen < MaxCritter ∧ u.zooLen ≤ d.pick + u.zooLen ∧
          d.pick + u.zooLen < MaxCritter)) := by
  refine ⟨(tryBirth_panic_iff m d u dt hpick).1,
    fun hn => ⟨tryBirth_returns m d u dt hpick hn, fun hlt => ?_⟩⟩
  · rw [not_or] at hn
    have hj : u.zooLen < MaxCritter := by
      simp only [MaxCritter] at hn ⊢
      omega
    have := hpick hj
    exact ⟨hj, by omega, by omega⟩

/-- Witness of C11 on the population that `Init` leaves, with `maxLive = 1`. -/
theorem tryBirth_fails_iff_witness :
    (∃ u', tryBirth Math32.sample Draws.birthing (Init Universe.start 640 480) 1 = .ok u') ∧
    (Init Universe.start 640 480).zooLen ≤ Draws.birthing.pick + (Init Universe.start 640 480).zooLen ∧
    Draws.birthing.pick + (Init Universe.start 640 480).zooLen < MaxCritter := by
  have h := (tryBirth_fails_iff Math32.sample Draws.birthing (Init Universe.start 640 480) 1
    (fun _ => by simp [Init, Draws.birthing, MaxCritter])).2
    (by simp [Init, Universe.start, MaxCritter])
  exact ⟨h.1, (h.2 (by simp [Init, Universe.start])).2⟩

/-- C12.  Whenever `tryBirth` returns, the live length has grown by at most 1
and the alien count `len(Zoo)-1` is at most `maxLive`; in particular with
`maxLive = 0` the live length of a population that has its reference entity
is not extended. -/
theorem tryBirth_cap (m : Math32) (d : Draws) (u u' : Universe) (dt : ℚ)
    (h : tryBirth m d u dt = .ok u') :
    u.zooLen ≤ u'.zooLen ∧ u'.zooLen ≤ u.zooLen + 1 ∧
    (u'.zooLen : Int) - 1 ≤ u'.maxLive ∧
    (u.maxLive = 0 → 1 ≤ u.zooLen → u'.zooLen = u.zooLen) := by
  obtain ⟨hm, hle, hlen⟩ := tryBirth_zooLen m d u u' dt h
  rw [hm]
  rcases hlen with h1 | ⟨h1, h2⟩
  · rw [h1]; exact ⟨le_refl _, by omega, hle, fun _ _ => rfl⟩
  · rw [h1]; exact ⟨by omega, le_refl _, by push_cast; omega, fun h0 h3 => by omega⟩

/-- C17.  `ImageIndex` is `0` for a health `≥ 0` and the integer `-health`
for a negative one, computed in `int`, where `deathThreshold` gives `32768`;
it is never negative. -/
theorem ImageIndex_value (c : Critter) :
    (c.health ≥ 0 → ImageIndex c = 0) ∧
    (c.health < 0 → ImageIndex c = -c.health) ∧
    (c.health = deathThreshold → ImageIndex c = 32768) ∧
    0 ≤ ImageIndex c := by
  unfold ImageIndex
  refine ⟨fun h => by rw [if_pos h], fun h => by rw [if_neg (by omega)], fun h => ?_, ?_⟩
  · rw [h]; decide
  · split_ifs <;> omega
/-- Witness of C12: with `maxLive = 0` on the population that `Init` leaves,
draws that would let a birth through do not extend the live length. -/
theorem tryBirth_cap_witness :
    ∃ u', tryBirth Math32.sample Draws.birthing
        { Init Universe.start 640 480 with maxLive := 0 } 1 = .ok u' ∧
      u'.zooLen ≤ 1 + 1 ∧ (u'.zooLen : Int) - 1 ≤ u'.maxLive ∧ u'.zooLen = 1 := by
  have hr : tryBirth Math32.sample Draws.birthing
      { Init Universe.start 640 480 with maxLive := 0 } 1 =
      .ok { Init Universe.start 640 480 with maxLive := 0 } := by
    simp [tryBirth, Init, MaxCritter]
  obtain ⟨-, h2, h3, h4⟩ := tryBirth_cap Math32.sample Draws.birthing
    { Init Universe.start 640 480 with maxLive := 0 } _ 1 hr
  exact ⟨_, hr, h2, h3, h4 rfl (by simp [Init])⟩

/-- C13.  For a population with alien count below `maxLive ≤ MaxCritter-1`,
and a slot draw inside the free slots, `tryBirth` returns and admits exactly
when its first sample is at most `dt * birthRate`.  When it admits, the live
length grows by exactly 1, every slot that was live is unchanged, and the new
last slot has amplitude 0, progress 0, health `initialHealth`, `Show = false`
and fall rate `(fall + 1) * 0.0256`; when it does not, the population is
unchanged. -/
theorem tryBirth_admission (m : Math32) (d : Draws) (u : Universe) (dt : ℚ)
    (hl : u.zooStorage.length = MaxCritter)
    (hcount : (u.zooLen : Int) - 1 < u.maxLive) (hmax : u.maxLive ≤ (MaxCritter : Int) - 1)
    (hpick : d.pick < MaxCritter - u.zooLen) :
    ∃ u', tryBirth m d u dt = .ok u' ∧
      (u'.zooLen = u.zooLen + 1 ↔ d.birth ≤ dt * u.birthRate) ∧
      (d.birth ≤ dt * u.birthRate →
        u'.zooLen = u.zooLen + 1 ∧
        (∀ i, i < u.zooLen → slot u'.zooStorage i = slot u.zooStorage i) ∧
        (slot u'.zooStorage u.zooLen).Amplitude = 0 ∧
        (slot u'.zooStorage u.zooLen).Progress = 0 ∧
        (slot u'.zooStorage u.zooLen).health = initialHealth ∧
        (slot u'.zooStorage u.zooLen).Show = false ∧
        (slot u'.zooStorage u.zooLen).fallRate = (d.fall + 1) * (256 / 10000)) ∧
      (¬ d.birth ≤ dt * u.birthRate → u' = u) := by
  obtain ⟨u', hu'⟩ := tryBirth_returns m d u dt (fun _ => hpick)
    (by rw [not_or]; exact ⟨by omega, by omega⟩)
  refine ⟨u', hu', ?_⟩
  rcases tryBirth_ok_cases m d u u' dt hl hu' with ⟨he, -, hno⟩ | hb
  · have hnb : ¬ d.birth ≤ dt * u.birthRate := by
      rcases hno with h1 | h1
      · omega
      · exact not_le.mpr h1
    subst he
    exact ⟨⟨fun h => by omega, fun h => absurd h hnb⟩, fun h => absurd h hnb, fun _ => rfl⟩
  · obtain ⟨-, -, hb, -, hlen, -, -, -, -, -, -, -, hkeep, c, hc⟩ := hb
    refine ⟨⟨fun _ => hb, fun _ => hlen⟩, fun _ => ⟨hlen, hkeep, ?_⟩, fun h => absurd hb h⟩
    rw [hc]
    exact ⟨rfl, rfl, rfl, rfl, rfl⟩

/-- The first `Update(1.0, 320, 240)` after `Init(640, 480)`: nothing to move
and nothing to cull, so it is the `tryBirth` of a population of live length 1
on the 640 by 480 field, with `maxLive = 1`, `birthRate = 1` and
`velocityMax = 1`. -/
theorem Update_after_Init_field (d : Draws) :
    ∃ u0 : Universe, u0.zooLen = 1 ∧ u0.maxLive = 1 ∧ u0.birthRate = 1 ∧
      u0.zooStorage.length = MaxCritter ∧
      u0.velocityMax = 1 ∧ u0.xSize = 640 ∧ u0.ySize = 480 ∧
      Update Math32.sample 1 d (Init Universe.start 640 480) 1 320 240 =
        tryBirth Math32.sample d u0 1 := by
  obtain ⟨u0, hu0⟩ : ∃ u0 : Universe, u0 =
      { Init Universe.start 640 480 with zooStorage := ((Init Universe.start 640 480).zooStorage.set 0
          { slot (Init Universe.start 640 480).zooStorage 0 with
            Sx := ((320 : Int) : ℚ), Sy := ((240 : Int) : ℚ), Amplitude := -1 }) } := ⟨_, rfl⟩
  have hlen : u0.zooLen = 1 := by rw [hu0]; rfl
  have h0 : (slot u0.zooStorage 0).health = 0 := by
    rw [hu0]; simp [Init, Universe.start, slot, MaxCritter, List.replicate, Critter.zero]
  have hlive : updateLive Math32.sample 1 u0 1 = .ok u0 := by
    simp [updateLive, updateLiveLoop, hlen]
  have hcull : cullDead u0 = u0 := by
    unfold cullDead
    rw [cullLoop, if_pos (by omega), if_pos (by rw [h0]; decide), cullLoop, if_neg (by omega)]
  refine ⟨u0, hlen, by rw [hu0]; rfl, by rw [hu0]; rfl, by rw [hu0]; simp [Init, Universe.start],
    by rw [hu0]; rfl, by rw [hu0]; simp [Init], by rw [hu0]; simp [Init], ?_⟩
  rw [Update_of_updateLive Math32.sample 1 d (Init Universe.start 640 480) u0 1 320 240
    (by simp [Init]) (by rw [← hu0]; exact hlive), hcull]

/-- The first `Update(1.0, 320, 240)` after `Init(640, 480)`: nothing to move
and nothing to cull, so it is the `tryBirth` of a population of live length 1
with `maxLive = 1` and `birthRate = 1`. -/
theorem Update_after_Init (d : Draws) :
    ∃ u0 : Universe, u0.zooLen = 1 ∧ u0.maxLive = 1 ∧ u0.birthRate = 1 ∧
      u0.zooStorage.length = MaxCritter ∧
      Update Math32.sample 1 d (Init Universe.start 640 480) 1 320 240 =
        tryBirth Math32.sample d u0 1 := by
  obtain ⟨u0, h1, h2, h3, h4, -, -, -, h5⟩ := Update_after_Init_field d
  exact ⟨u0, h1, h2, h3, h4, h5⟩

/-- Witness of C13, the scenario of the claim: after `Init(640, 480)`, with
`maxLive = 1` and a generator that always returns `0`, `Update(1.0, 320, 240)`
gives live length 2, and the newborn of slot 1 is in its birth state. -/
theorem tryBirth_admission_witness :
    ∃ u', Update Math32.sample 1 Draws.zero (Init Universe.start 640 480) 1 320 240 = .ok u' ∧
      u'.zooLen = 2 ∧ (slot u'.zooStorage 1).health = initialHealth ∧
      (slot u'.zooStorage 1).Progress = 0 ∧ (slot u'.zooStorage 1).Show = false := by
  obtain ⟨u0, hlen, hmax, hrate, hstore, hU⟩ := Update_after_Init Draws.zero
  obtain ⟨u', hu', -, hb, -⟩ := tryBirth_admission Math32.sample Draws.zero u0 1 hstore
    (by rw [hlen, hmax]; decide) (by rw [hmax]; decide) (by rw [hlen]; decide)
  obtain ⟨h1, -, -, h3, h4, h5, -⟩ := hb (by rw [hrate]; simp [Draws.zero])
  rw [hlen] at h1 h3 h4 h5
  exact ⟨u', by rw [hU, hu'], h1, h4, h3, h5⟩

/-! ## The claim on the position of a newborn -/

/-- With an alien in slot 1 whose tentative `x` position is beyond
`xSize - 1`, the limit that `updateLive` passes to `bounce`, `Update`
panics. -/
theorem Update_panics_beyond (m : Math32) (fuel : Nat) (d : Draws) (u : Universe) (dt : ℚ)
    (selfX selfY : Int) (h2 : 2 ≤ u.zooLen)
    (h : u.xSize - 1 < (slot u.zooStorage 1).Sx + (slot u.zooStorage 1).vx * dt) :
    Update m fuel d u dt selfX selfY = .error .panic := by
  obtain ⟨n, hn⟩ : ∃ n, u.zooLen - 1 = n + 1 := ⟨u.zooLen - 2, by omega⟩
  unfold Update
  rw [if_neg (by omega)]
  simp only [updateLive]
  rw [if_neg (by omega)]
  simp only [hn, updateLiveLoop, updateAlien]
  rw [slot_set_ne _ _ _ _ (by decide), bounce_outside _ _ _ _ _ (Or.inr h)]

/-- C7 (defect of `initAlien`).  The claim is that a newborn satisfies the
precondition of `bounce`, `0 ≤ Sx ≤ xSize - 1`.  `initAlien` draws
`Sx = rand.Float32() * xSize`, from `[0, xSize)`: after `Init(640, 480)`, the
first `Update(1.0, 320, 240)` with the position sample `1023/1024` of
`[0, 1)` returns with a newborn in slot 1 at `Sx = 639.375`, beyond the limit
`xSize - 1 = 639` that `updateLive` passes to `bounce`; and the next
`Update` panics in `bounce`, for every frame `dt ≥ 0`, every position of the
reference entity and all draws. -/
theorem newborn_beyond_limit :
    (0 : ℚ) ≤ 1023 / 1024 ∧ (1023 / 1024 : ℚ) < 1 ∧
    ∃ u1, Update Math32.sample 1 { Draws.zero with posX := 1023 / 1024 }
        (Init Universe.start 640 480) 1 320 240 = .ok u1 ∧
      u1.zooLen = 2 ∧ u1.xSize - 1 = 639 ∧
      (slot u1.zooStorage 1).Sx = 639 + 3 / 8 ∧
      ¬ ((slot u1.zooStorage 1).Sx ≤ u1.xSize - 1) ∧
      ∀ (fuel : Nat) (d : Draws) (dt : ℚ) (selfX selfY : Int), 0 ≤ dt →
        Update Math32.sample fuel d u1 dt selfX selfY = .error .panic := by
  obtain ⟨u0, hlen, hmax, hrate, hstore, hvel, hxs, -, hU⟩ :=
    Update_after_Init_field { Draws.zero with posX := 1023 / 1024 }
  obtain ⟨u1, hu1⟩ := tryBirth_returns Math32.sample { Draws.zero with posX := 1023 / 1024 } u0 1
    (fun _ => by rw [hlen]; decide) (by rw [not_or, hlen, hmax]; exact ⟨by decide, by decide⟩)
  rcases tryBirth_ok_cases _ _ _ _ _ hstore hu1 with ⟨-, -, hno⟩ | hb
  · exfalso
    rw [hlen, hmax, hrate] at hno
    rcases hno with h | h
    · omega
    · norm_num [Draws.zero] at h
  · obtain ⟨-, -, -, -, hl1, -, -, -, -, hx1, -, -, -, c, hc⟩ := hb
    rw [hlen] at hl1 hc
    have hsx : (slot u1.zooStorage 1).Sx = 639 + 3 / 8 := by
      rw [hc]
      simp only [initAlien, hxs]
      norm_num
    have hvx : (slot u1.zooStorage 1).vx = 1 := by
      rw [hc]
      simp only [initAlien, hvel, Math32.sample]
      norm_num
    have hlim : u1.xSize - 1 = 639 := by rw [hx1, hxs]; norm_num
    refine ⟨by norm_num, by norm_num, u1, by rw [hU, hu1], hl1, hlim, hsx, ?_, ?_⟩
    · rw [hsx, hlim]; norm_num
    · intro fuel d dt selfX selfY hdt
      exact Update_panics_beyond _ _ _ _ _ _ _ (by omega) (by rw [hsx, hvx, hlim]; linarith)

/-! ## The claim on the speed of a newborn -/

theorem circle_pythagoras (x : ℚ) :
    Math32.circle.Cos x ^ 2 + Math32.circle.Sin x ^ 2 = 1 := by
  have h : (1 : ℚ) + (2 * x / 3) ^ 2 ≠ 0 := by positivity
  simp only [Math32.circle]
  field_simp
  ring

/-- C14, counterexample.  With the velocity samples `0` and `1/4` the two
angles are `0` and `Pi / 2`: the newborn has `vx = cos 0 = 1` and
`vy = sin (Pi / 2) = 1` for `velocityMax = 1`, so `vx² + vy² = 2`. -/
theorem newborn_speed_differs :
    (∀ x, Math32.circle.Cos x ^ 2 + Math32.circle.Sin x ^ 2 = 1) ∧
    (Init Universe.start 640 480).velocityMax = 1 ∧
    (initAlien Math32.circle { Draws.zero with angY := 1 / 4 }
      (Init Universe.start 640 480) Critter.zero).vx = 1 ∧
    (initAlien Math32.circle { Draws.zero with angY := 1 / 4 }
      (Init Universe.start 640 480) Critter.zero).vy = 1 ∧
    (initAlien Math32.circle { Draws.zero with angY := 1 / 4 }
        (Init Universe.start 640 480) Critter.zero).vx *
      (initAlien Math32.circle { Draws.zero with angY := 1 / 4 }
        (Init Universe.start 640 480) Critter.zero).vx +
    (initAlien Math32.circle { Draws.zero with angY := 1 / 4 }
        (Init Universe.start 640 480) Critter.zero).vy *
      (initAlien Math32.circle { Draws.zero with angY := 1 / 4 }
        (Init Universe.start 640 480) Critter.zero).vy ≠
    (Init Universe.start 640 480).velocityMax * (Init Universe.start 640 480).velocityMax := by
  have hvx : (initAlien Math32.circle { Draws.zero with angY := 1 / 4 }
      (Init Universe.start 640 480) Critter.zero).vx = 1 := by
    simp [initAlien, Math32.circle, Init, Universe.start, Draws.zero]
  have hvy : (initAlien Math32.circle { Draws.zero with angY := 1 / 4 }
      (Init Universe.start 640 480) Critter.zero).vy = 1 := by
    simp [initAlien, Math32.circle, Init, Universe.start, Draws.zero]
    norm_num
  refine ⟨circle_pythagoras, rfl, hvx, hvy, ?_⟩
  rw [hvx, hvy]
  simp [Init, Universe.start]

/-- C14, amended.  With a cosine and a sine that satisfy
`cos² + sin² = 1`, the velocity of a newborn is
`(cos (2 Pi a) * velocityMax, sin (2 Pi b) * velocityMax)` for the two samples
`a` and `b`: each component is at most `velocityMax` in magnitude, so
`vx² + vy² ≤ 2 velocityMax²`, and `vx² + vy² = velocityMax²` when the two
samples are equal. -/
theorem newborn_speed_bound (m : Math32) (d : Draws) (u : Universe) (c : Critter)
    (hm : ∀ x, m.Cos x ^ 2 + m.Sin x ^ 2 = 1) :
    (initAlien m d u c).vx = m.Cos (2 * m.Pi * d.angX) * u.velocityMax ∧
    (initAlien m d u c).vy = m.Sin (2 * m.Pi * d.angY) * u.velocityMax ∧
    (initAlien m d u c).vx * (initAlien m d u c).vx ≤ u.velocityMax * u.velocityMax ∧
    (initAlien m d u c).vy * (initAlien m d u c).vy ≤ u.velocityMax * u.velocityMax ∧
    (initAlien m d u c).vx * (initAlien m d u c).vx +
      (initAlien m d u c).vy * (initAlien m d u c).vy ≤ 2 * (u.velocityMax * u.velocityMax) ∧
    (d.angX = d.angY →
      (initAlien m d u c).vx * (initAlien m d u c).vx +
        (initAlien m d u c).vy * (initAlien m d u c).vy = u.velocityMax * u.velocityMax) := by
  have hx := hm (2 * m.Pi * d.angX)
  have hy := hm (2 * m.Pi * d.angY)
  have hc : m.Cos (2 * m.Pi * d.angX) ^ 2 ≤ 1 := by nlinarith [sq_nonneg (m.Sin (2 * m.Pi * d.angX))]
  have hs : m.Sin (2 * m.Pi * d.angY) ^ 2 ≤ 1 := by nlinarith [sq_nonneg (m.Cos (2 * m.Pi * d.angY))]
  have hv : 0 ≤ u.velocityMax * u.velocityMax := mul_self_nonneg _
  have h1 : m.Cos (2 * m.Pi * d.angX) * u.velocityMax * (m.Cos (2 * m.Pi * d.angX) * u.velocityMax)
      ≤ u.velocityMax * u.velocityMax := by nlinarith
  have h2 : m.Sin (2 * m.Pi * d.angY) * u.velocityMax * (m.Sin (2 * m.Pi * d.angY) * u.velocityMax)
      ≤ u.velocityMax * u.velocityMax := by nlinarith
  refine ⟨rfl, rfl, h1, h2, ?_, fun he => ?_⟩
  · show m.Cos (2 * m.Pi * d.angX) * u.velocityMax * (m.Cos (2 * m.Pi * d.angX) * u.velocityMax) +
      m.Sin (2 * m.Pi * d.angY) * u.velocityMax * (m.Sin (2 * m.Pi * d.angY) * u.velocityMax) ≤ _
    linarith
  · show m.Cos (2 * m.Pi * d.angX) * u.velocityMax * (m.Cos (2 * m.Pi * d.angX) * u.velocityMax) +
      m.Sin (2 * m.Pi * d.angY) * u.velocityMax * (m.Sin (2 * m.Pi * d.angY) * u.velocityMax) = _
    rw [he] at hx ⊢
    linear_combination (u.velocityMax * u.velocityMax) * hy

/-- Witness of the amended C14: with both velocity samples `0` the newborn
has speed `velocityMax`. -/
theorem newborn_speed_bound_witness :
    (initAlien Math32.circle Draws.zero (Init Universe.start 640 480) Critter.zero).vx *
        (initAlien Math32.circle Draws.zero (Init Universe.start 640 480) Critter.zero).vx +
      (initAlien Math32.circle Draws.zero (Init Universe.start 640 480) Critter.zero).vy *
        (initAlien Math32.circle Draws.zero (Init Universe.start 640 480) Critter.zero).vy =
    (Init Universe.start 640 480).velocityMax * (Init Universe.start 640 480).velocityMax :=
  (newborn_speed_bound Math32.circle Draws.zero (Init Universe.start 640 480) Critter.zero
    circle_pythagoras).2.2.2.2.2 rfl

/-! ## `cullDead`, slot 0 and a single death -/

/-- What `cullDead` never touches: the length of the backing array and the
package variables other than `zooStorage` and `Zoo`; and `Zoo` never grows. -/
theorem cullLoop_frame (j : Nat) (u : Universe) :
    (cullLoop j u).zooStorage.length = u.zooStorage.length ∧
    (cullLoop j u).zooLen ≤ u.zooLen ∧
    (cullLoop j u).xSize = u.xSize ∧ (cullLoop j u).ySize = u.ySize ∧
    (cullLoop j u).killRadius2 = u.killRadius2 ∧ (cullLoop j u).birthRate = u.birthRate ∧
    (cullLoop j u).maxLive = u.maxLive ∧ (cullLoop j u).velocityMax = u.velocityMax := by
  obtain ⟨_, _, h⟩ := cullLoop_induction
    (fun _ v => v.zooStorage.length = u.zooStorage.length ∧ v.zooLen ≤ u.zooLen ∧
      v.xSize = u.xSize ∧ v.ySize = u.ySize ∧ v.killRadius2 = u.killRadius2 ∧
      v.birthRate = u.birthRate ∧ v.maxLive = u.maxLive ∧ v.velocityMax = u.velocityMax)
    (fun _ _ _ _ h => h)
    (fun i v _ _ h => ⟨by rw [cullAt_length]; exact h.1, by rw [cullAt_zooLen]; omega,
      h.2.2.1, h.2.2.2.1, h.2.2.2.2.1, h.2.2.2.2.2.1, h.2.2.2.2.2.2.1, h.2.2.2.2.2.2.2⟩)
    j u ⟨rfl, le_refl _, rfl, rfl, rfl, rfl, rfl, rfl⟩
  exact h

/-- The slots that `cullAt j` leaves alone: all but `j` and the last live
one. -/
theorem cullAt_slot_ne (j i : Nat) (u : Universe) (h1 : i ≠ j) (h2 : i ≠ u.zooLen - 1) :
    slot (cullAt j u).zooStorage i = slot u.zooStorage i := by
  simp only [cullAt]
  rw [slot_set_ne _ _ _ _ (Ne.symm h2), slot_set_ne _ _ _ _ (Ne.symm h1)]

/-- The slot that `cullAt j` fills, when it is not the last live one: it
holds the record of the last live slot. -/
theorem cullAt_slot_self (j : Nat) (u : Universe) (h1 : j < u.zooLen - 1)
    (hlen : u.zooLen ≤ u.zooStorage.length) :
    slot (cullAt j u).zooStorage j = slot u.zooStorage (u.zooLen - 1) := by
  simp only [cullAt]
  rw [slot_set_ne _ _ _ _ (by omega), slot_set_self _ _ _ (by omega)]

/-- With a reference entity that is not terminal, the loop of `cullDead`
leaves slot 0 as it is and the live slice not empty. -/
theorem cullLoop_slot0 (j : Nat) (u : Universe) (h1 : 1 ≤ u.zooLen)
    (h0 : deathThreshold < (slot u.zooStorage 0).health) :
    slot (cullLoop j u).zooStorage 0 = slot u.zooStorage 0 ∧ 1 ≤ (cullLoop j u).zooLen := by
  obtain ⟨_, _, h⟩ := cullLoop_induction
    (fun _ v => slot v.zooStorage 0 = slot u.zooStorage 0 ∧ 1 ≤ v.zooLen)
    (fun _ _ _ _ h => h)
    (fun i v hi hd h => by
      have hi0 : i ≠ 0 := by
        rintro rfl
        rw [h.1] at hd
        exact hd h0
      refine ⟨?_, by rw [cullAt_zooLen]; omega⟩
      rw [cullAt_slot_ne i 0 v (Ne.symm hi0) (by omega)]
      exact h.1)
    j u ⟨rfl, h1⟩
  exact h

/-- C15, counterexample.  With a terminal record in slot 0, `cullDead` culls
slot 0 like any other: a live slice of length 1 becomes empty, and in a live
slice of length 3 the record of slot 0 is replaced by the alien of slot 2. -/
theorem cullDead_culls_slot0 :
    (slot (sampleZoo (spentAlien 0) (dyingAlien 1) (dyingAlien 2) 1).zooStorage 0).health
      ≤ deathThreshold ∧
    (cullDead (sampleZoo (spentAlien 0) (dyingAlien 1) (dyingAlien 2) 1)).zooLen = 0 ∧
    (cullDead (sampleZoo (spentAlien 0) (dyingAlien 1) (dyingAlien 2) 3)).zooLen = 2 ∧
    slot (cullDead (sampleZoo (spentAlien 0) (dyingAlien 1) (dyingAlien 2) 3)).zooStorage 0
      = dyingAlien 2 ∧
    dyingAlien 2 ≠ spentAlien 0 := by
  refine ⟨by simp [sampleZoo, slot, spentAlien], ?_, ?_, ?_, fun h => ?_⟩
  · simp [cullDead, cullLoop, cullAt, sampleZoo, slot, spentAlien, dyingAlien, deathThreshold]
  · simp [cullDead, cullLoop, cullAt, sampleZoo, slot, spentAlien, dyingAlien, deathThreshold]
  · simp [cullDead, cullLoop, cullAt, sampleZoo, slot, spentAlien, dyingAlien, deathThreshold]
  · have hid := congrArg Critter.id h
    simp [dyingAlien, spentAlien] at hid

/-- C15, amended.  For every population with live length `≥ 1` whose slot 0
is not terminal, `cullDead` leaves the record of slot 0 in place and
unchanged and leaves live length `≥ 1`. -/
theorem cullDead_keeps_slot0 (u : Universe) (h1 : 1 ≤ u.zooLen)
    (h0 : deathThreshold < (slot u.zooStorage 0).health) :
    slot (cullDead u).zooStorage 0 = slot u.zooStorage 0 ∧ 1 ≤ (cullDead u).zooLen :=
  cullLoop_slot0 0 u h1 h0

/-- Witness of the amended C15 on the sample population with two terminal
aliens. -/
theorem cullDead_keeps_slot0_witness :
    slot (cullDead (sampleZoo refCritter (spentAlien 1) (spentAlien 2) 3)).zooStorage 0
      = refCritter ∧
    1 ≤ (cullDead (sampleZoo refCritter (spentAlien 1) (spentAlien 2) 3)).zooLen :=
  cullDead_keeps_slot0 (sampleZoo refCritter (spentAlien 1) (spentAlien 2) 3)
    (by simp [sampleZoo]) (by simp [sampleZoo, slot, refCritter, Critter.zero, deathThreshold])

/-- With exactly one terminal entity in the live slice, in slot `t`, the loop
of `cullDead` culls slot `t` and nothing else. -/
theorem cullDead_single (u : Universe) (t : Nat) (ht : t < u.zooLen)
    (hterm : ¬ (slot u.zooStorage t).health > deathThreshold)
    (hothers : ∀ i, i < u.zooLen → i ≠ t → (slot u.zooStorage i).health > deathThreshold)
    (hlen : u.zooLen ≤ u.zooStorage.length) :
    cullDead u = cullAt t u ∧
    ∀ i, i < (cullAt t u).zooLen → (slot (cullAt t u).zooStorage i).health > deathThreshold := by
  have hall : ∀ i, i < (cullAt t u).zooLen →
      (slot (cullAt t u).zooStorage i).health > deathThreshold := by
    intro i hi
    rw [cullAt_zooLen] at hi
    by_cases hit : i = t
    · subst hit
      rw [cullAt_slot_self i u hi hlen]
      exact hothers _ (by omega) (by omega)
    · rw [cullAt_slot_ne t i u hit (by omega)]
      exact hothers i (by omega) hit
  refine ⟨?_, hall⟩
  obtain ⟨j', hj', h⟩ := cullLoop_induction
    (fun j v => (j ≤ t ∧ v = u) ∨ (t < j ∧ v = cullAt t u))
    (fun j v hj hs h => by
      rcases h with ⟨h1, rfl⟩ | ⟨h1, h2⟩
      · rcases Nat.lt_or_ge j t with h3 | h3
        · exact Or.inl ⟨h3, rfl⟩
        · have : j = t := by omega
          subst this
          exact absurd hs hterm
      · exact Or.inr ⟨by omega, h2⟩)
    (fun j v hj hd h => by
      rcases h with ⟨h1, rfl⟩ | ⟨h1, h2⟩
      · rcases Nat.lt_or_ge j t with h3 | h3
        · exact absurd (hothers j hj (by omega)) hd
        · have : j = t := by omega
          subst this
          exact Or.inr ⟨by omega, rfl⟩
      · subst h2
        exact absurd (hall j hj) hd)
    0 u (Or.inl ⟨Nat.zero_le _, rfl⟩)
  rcases h with ⟨h1, h2⟩ | ⟨-, h2⟩
  · exfalso
    have : (cullLoop 0 u).zooLen = u.zooLen := by rw [h2]
    omega
  · exact h2

/-- The loop body reads only the field size and the kill radius of the
package variables. -/
theorem updateAlien_congr (m : Math32) (fuel : Nat) (u v : Universe) (dt x0 y0 : ℚ) (c : Critter)
    (hx : u.xSize = v.xSize) (hy : u.ySize = v.ySize) (hk : u.killRadius2 = v.killRadius2) :
    updateAlien m fuel u dt x0 y0 c = updateAlien m fuel v dt x0 y0 c := by
  simp only [updateAlien, updateState, hx, hy, hk]

/-- A step that leaves an alien with health `≤ 0` and a negative amplitude
leaves it terminal. -/
theorem updateState_spent (m : Math32) (u : Universe) (dt x0 y0 : ℚ) (c : Critter)
    (hh : (updateState m u dt x0 y0 c).health ≤ 0)
    (ha : (updateState m u dt x0 y0 c).Amplitude < 0) :
    (updateState m u dt x0 y0 c).health = deathThreshold := by
  unfold updateState at hh ha ⊢
  simp only at hh ha ⊢
  split_ifs at hh ha ⊢ <;>
    first
    | rfl
    | (exfalso; simp only at *; omega)
    | (exfalso; simp only at *; linarith)

/-! ## `updateLive`, slot by slot -/

/-- What the loop of `updateLive` has done when it returns: the slots
`k .. k + n - 1` hold what the loop body returned for them, every other slot
and every other package variable is as before. -/
theorem updateLiveLoop_spec (m : Math32) (fuel : Nat) (dt x0 y0 : ℚ) :
    ∀ (n k : Nat) (u u' : Universe), updateLiveLoop m fuel dt x0 y0 n k u = .ok u' →
      u'.zooLen = u.zooLen ∧ u'.zooStorage.length = u.zooStorage.length ∧
      u'.xSize = u.xSize ∧ u'.ySize = u.ySize ∧ u'.killRadius2 = u.killRadius2 ∧
      u'.birthRate = u.birthRate ∧ u'.maxLive = u.maxLive ∧ u'.velocityMax = u.velocityMax ∧
      (∀ i, i < k ∨ k + n ≤ i → slot u'.zooStorage i = slot u.zooStorage i) ∧
      (∀ i, k ≤ i → i < k + n → i < u.zooStorage.length →
        updateAlien m fuel u dt x0 y0 (slot u.zooStorage i) = .ok (slot u'.zooStorage i)) := by
  intro n
  induction n with
  | zero =>
    intro k u u' h
    simp only [updateLiveLoop, Except.ok.injEq] at h
    subst h
    exact ⟨rfl, rfl, rfl, rfl, rfl, rfl, rfl, rfl, fun _ _ => rfl, fun i h1 h2 _ => by omega⟩
  | succ n ih =>
    intro k u u' h
    simp only [updateLiveLoop] at h
    cases hU : updateAlien m fuel u dt x0 y0 (slot u.zooStorage k) with
    | error e => rw [hU] at h; cases h
    | ok c =>
      rw [hU] at h
      simp only at h
      obtain ⟨h1, h2, h3, h4, h5, h6, h7, h8, h9, h10⟩ := ih (k + 1) _ u' h
      simp only [List.length_set] at h2
      refine ⟨h1, h2, h3, h4, h5, h6, h7, h8, fun i hi => ?_, fun i hi1 hi2 hi3 => ?_⟩
      · rw [h9 i (by omega)]
        exact slot_set_ne _ _ _ _ (by omega)
      · rcases Nat.eq_or_lt_of_le hi1 with hik | hik
        · subst hik
          rw [h9 k (by omega), slot_set_self _ _ _ hi3]
          exact hU
        · have := h10 i (by omega) (by omega) (by simpa using hi3)
          rw [slot_set_ne _ _ _ _ (by omega)] at this
          rw [← this]
          exact updateAlien_congr m fuel _ _ dt x0 y0 _ rfl rfl rfl

/-- What `updateLive` has done when it returns: the population had its
reference entity, slot 0 and every slot outside the live slice are as before,
and every alien of the live slice holds what the loop body returned for
it. -/
theorem updateLive_spec (m : Math32) (fuel : Nat) (u u' : Universe) (dt : ℚ)
    (h : updateLive m fuel u dt = .ok u') :
    1 ≤ u.zooLen ∧
    u'.zooLen = u.zooLen ∧ u'.zooStorage.length = u.zooStorage.length ∧
    u'.xSize = u.xSize ∧ u'.ySize = u.ySize ∧ u'.killRadius2 = u.killRadius2 ∧
    u'.birthRate = u.birthRate ∧ u'.maxLive = u.maxLive ∧ u'.velocityMax = u.velocityMax ∧
    (∀ i, i < 1 ∨ u.zooLen ≤ i → slot u'.zooStorage i = slot u.zooStorage i) ∧
    (∀ i, 1 ≤ i → i < u.zooLen → i < u.zooStorage.length →
      updateAlien m fuel u dt (slot u.zooStorage 0).Sx (slot u.zooStorage 0).Sy
        (slot u.zooStorage i) = .ok (slot u'.zooStorage i)) := by
  unfold updateLive at h
  split_ifs at h with h0
  simp only at h
  obtain ⟨h1, h2, h3, h4, h5, h6, h7, h8, h9, h10⟩ := updateLiveLoop_spec m fuel dt _ _ _ _ u u' h
  exact ⟨by omega, h1, h2, h3, h4, h5, h6, h7, h8, fun i hi => h9 i (by omega),
    fun i hi1 hi2 hi3 => h10 i hi1 (by omega) hi3⟩

/-- If the loop body returns for every alien of the live slice, `updateLive`
returns. -/
theorem updateLiveLoop_returns (m : Math32) (fuel : Nat) (dt x0 y0 : ℚ) :
    ∀ (n k : Nat) (u : Universe),
      (∀ i, k ≤ i → i < k + n → ∃ c, updateAlien m fuel u dt x0 y0 (slot u.zooStorage i) = .ok c) →
      ∃ u', updateLiveLoop m fuel dt x0 y0 n k u = .ok u' := by
  intro n
  induction n with
  | zero => intro k u _; exact ⟨u, rfl⟩
  | succ n ih =>
    intro k u h
    obtain ⟨c, hc⟩ := h k (le_refl _) (by omega)
    simp only [updateLiveLoop, hc]
    apply ih
    intro i hi1 hi2
    rw [slot_set_ne _ _ _ _ (by omega)]
    obtain ⟨c', hc'⟩ := h i (by omega) (by omega)
    exact ⟨c', by rw [← hc']; exact updateAlien_congr m fuel _ _ dt x0 y0 _ rfl rfl rfl⟩

/-- `Update` on a population with one alien whose step leaves it with health
`≤ 0` and a negative amplitude: `updateLive` returns with the alien terminal,
and `cullDead` hands a live slice of length 1 to `tryBirth`. -/
theorem Update_single_death (m : Math32) (fuel : Nat) (d : Draws) (v : Universe) (dt : ℚ)
    (selfX selfY : Int) (c' : Critter) (hwf : WellFormed v) (hlen : v.zooLen = 2)
    (h0 : deathThreshold < (slot v.zooStorage 0).health)
    (hstep : updateAlien m fuel v dt selfX selfY (slot v.zooStorage 1) = .ok c')
    (hh : c'.health ≤ 0) (ha : c'.Amplitude < 0) :
    ∃ v1, updateLive m fuel
        { v with zooStorage := (v.zooStorage.set 0
            { slot v.zooStorage 0 with Sx := (selfX : ℚ), Sy := (selfY : ℚ), Amplitude := -1 }) }
        dt = .ok v1 ∧
      (slot v1.zooStorage 1).health = deathThreshold ∧
      (cullDead v1).zooLen = 1 ∧
      Update m fuel d v dt selfX selfY = tryBirth m d (cullDead v1) dt ∧
      ∀ u', Update m fuel d v dt selfX selfY = .ok u' →
        u'.zooLen = 1 ∨ (u'.zooLen = 2 ∧ 0 < v.maxLive) := by
  have hl16 : v.zooStorage.length = 16 := hwf.1
  obtain ⟨v0, hv0⟩ : ∃ v0 : Universe, v0 =
      { v with zooStorage := (v.zooStorage.set 0
          { slot v.zooStorage 0 with Sx := (selfX : ℚ), Sy := (selfY : ℚ), Amplitude := -1 }) } :=
    ⟨_, rfl⟩
  rw [← hv0]
  have hv0len : v0.zooLen = 2 := by rw [hv0]; exact hlen
  have hv0store : v0.zooStorage.length = 16 := by rw [hv0]; simpa using hl16
  have hs0 : slot v0.zooStorage 0 =
      { slot v.zooStorage 0 with Sx := (selfX : ℚ), Sy := (selfY : ℚ), Amplitude := -1 } := by
    rw [hv0]; exact slot_set_self _ _ _ (by omega)
  have hs1 : slot v0.zooStorage 1 = slot v.zooStorage 1 := by
    rw [hv0]; exact slot_set_ne _ _ _ _ (by omega)
  have hstep0 : updateAlien m fuel v0 dt (slot v0.zooStorage 0).Sx (slot v0.zooStorage 0).Sy
      (slot v0.zooStorage 1) = .ok c' := by
    rw [hs0, hs1, ← hstep]
    exact updateAlien_congr m fuel _ _ dt _ _ _ (by rw [hv0]) (by rw [hv0]) (by rw [hv0])
  have hc'thr : c'.health = deathThreshold := by
    have he := updateAlien_ok m fuel v dt selfX selfY _ c' hstep
    rw [he] at hh ha ⊢
    exact updateState_spent m v dt _ _ _ hh ha
  have hlive : updateLive m fuel v0 dt =
      .ok { v0 with zooStorage := v0.zooStorage.set 1 c' } := by
    unfold updateLive
    rw [if_neg (by omega)]
    simp only [hv0len, updateLiveLoop, hstep0]
  have hcull1 : (cullDead { v0 with zooStorage := v0.zooStorage.set 1 c' }).zooLen = 1 := by
    have hsingle := cullDead_single { v0 with zooStorage := v0.zooStorage.set 1 c' } 1
      (by simp only [hv0len]; omega)
      (by simp only; rw [slot_set_self _ _ _ (by omega), hc'thr]; decide)
      (fun i hi hne => by
        have hi0 : i = 0 := by simp only [hv0len] at hi; omega
        subst hi0
        simp only
        rw [slot_set_ne _ _ _ _ (by omega), hs0]
        exact h0)
      (by simp only [hv0len, List.length_set, hv0store]; omega)
    rw [hsingle.1, cullAt_zooLen]
    simp only [hv0len]
  have hUpd := Update_of_updateLive m fuel d v _ dt selfX selfY (by omega)
    (by rw [← hv0]; exact hlive)
  refine ⟨_, hlive, ?_, hcull1, hUpd, fun u' hu' => ?_⟩
  · simp only
    rw [slot_set_self _ _ _ (by omega)]
    exact hc'thr
  · rw [hUpd] at hu'
    obtain ⟨-, -, hcase⟩ := tryBirth_zooLen m d _ u' dt hu'
    obtain ⟨-, -, -, -, -, -, hml, -⟩ :=
      cullLoop_frame 0 { v0 with zooStorage := v0.zooStorage.set 1 c' }
    have hml0 : v0.maxLive = v.maxLive := by rw [hv0]
    rcases hcase with h1 | ⟨h1, h2⟩
    · left; rw [h1, hcull1]
    · right
      rw [hcull1] at h1 h2
      unfold cullDead at h2
      rw [hml] at h2
      simp only at h2
      rw [hml0] at h2
      exact ⟨h1, by omega⟩

/-! ## The claim on a single death -/

/-- C16.  In a population whose slot 0 is not terminal and in which exactly
one alien, in slot `t` of the live slice, is terminal, `cullDead` returns a live
slice of length `len - 1` without any terminal entity.  In particular, for a
population with one alien in total, in the `Update` in which the step of
`updateLive` leaves that alien dying with an amplitude below 0, the alien
comes out of `updateLive` terminal and `cullDead` brings the live length back
to 1 in that same `Update`; the `tryBirth` that ends the `Update` leaves it
at 1 or, when `maxLive > 0`, may admit a newborn. -/
theorem single_death_reclaimed (u : Universe) (t : Nat) (hwf : WellFormed u)
    (h0 : deathThreshold < (slot u.zooStorage 0).health) (ht : t < u.zooLen)
    (hterm : (slot u.zooStorage t).health ≤ deathThreshold)
    (hothers : ∀ i, 1 ≤ i → i < u.zooLen → i ≠ t →
      deathThreshold < (slot u.zooStorage i).health) :
    (cullDead u).zooLen = u.zooLen - 1 ∧
    (∀ i, i < (cullDead u).zooLen → deathThreshold < (slot (cullDead u).zooStorage i).health) ∧
    (∀ (m : Math32) (fuel : Nat) (d : Draws) (v : Universe) (dt : ℚ) (selfX selfY : Int)
      (c' : Critter), WellFormed v → v.zooLen = 2 →
      deathThreshold < (slot v.zooStorage 0).health →
      updateAlien m fuel v dt selfX selfY (slot v.zooStorage 1) = .ok c' →
      c'.health ≤ 0 → c'.Amplitude < 0 →
      ∃ v1, updateLive m fuel
          { v with zooStorage := (v.zooStorage.set 0
              { slot v.zooStorage 0 with
                Sx := (selfX : ℚ), Sy := (selfY : ℚ), Amplitude := -1 }) }
          dt = .ok v1 ∧
        (slot v1.zooStorage 1).health = deathThreshold ∧
        (cullDead v1).zooLen = 1 ∧
        Update m fuel d v dt selfX selfY = tryBirth m d (cullDead v1) dt ∧
        ∀ u', Update m fuel d v dt selfX selfY = .ok u' →
          u'.zooLen = 1 ∨ (u'.zooLen = 2 ∧ 0 < v.maxLive)) := by
  obtain ⟨he, hall⟩ := cullDead_single u t ht (by omega)
    (fun i hi hne => by
      rcases Nat.eq_zero_or_pos i with hi0 | hi0
      · subst hi0; exact h0
      · exact hothers i hi0 hi hne)
    (by rw [hwf.1]; exact hwf.2)
  rw [he]
  exact ⟨cullAt_zooLen t u, hall, fun m fuel d v dt selfX selfY c' hv hl hv0 hs hh ha =>
    Update_single_death m fuel d v dt selfX selfY c' hv hl hv0 hs hh ha⟩

/-- When the alien count is within the cap and the admission sample exceeds
`dt * birthRate`, `tryBirth` returns the population as it is. -/
theorem tryBirth_no_admission (m : Math32) (d : Draws) (u : Universe) (dt : ℚ)
    (h1 : u.maxLive ≤ (MaxCritter : Int) - 1) (h2 : (u.zooLen : Int) - 1 ≤ u.maxLive)
    (h3 : dt * u.birthRate < d.birth) : tryBirth m d u dt = .ok u := by
  unfold tryBirth
  simp only
  rw [if_neg (by omega), if_neg (by omega)]
  split_ifs <;> rfl

/-- Witness of C16: the sample population with a terminal alien in slot 1
and a dying one in slot 2; and `Update` on the sample population with one
dying alien, whose amplitude runs out in the frame. -/
theorem single_death_reclaimed_witness :
    (cullDead (sampleZoo refCritter (spentAlien 1) (dyingAlien 2) 3)).zooLen = 2 ∧
    (∀ i, i < (cullDead (sampleZoo refCritter (spentAlien 1) (dyingAlien 2) 3)).zooLen →
      deathThreshold <
        (slot (cullDead (sampleZoo refCritter (spentAlien 1) (dyingAlien 2) 3)).zooStorage i).health) ∧
    ∃ u', Update Math32.sample 1 Draws.sample
        (sampleZoo Critter.zero (dyingAlien 1) (dyingAlien 2) 2) (1 / 100) 320 240 = .ok u' ∧
      u'.zooLen = 1 := by
  obtain ⟨h1, h2, h3⟩ := single_death_reclaimed (sampleZoo refCritter (spentAlien 1) (dyingAlien 2) 3) 1
    (wellFormed_sampleZoo _ _ _ 3 (by decide))
    (by simp [sampleZoo, slot, refCritter, Critter.zero, deathThreshold])
    (by simp [sampleZoo])
    (by simp [sampleZoo, slot, spentAlien])
    (fun i hi1 hi2 hne => by
      have hi : i = 2 := by simp only [sampleZoo] at hi2; omega
      subst hi
      simp [sampleZoo, slot, dyingAlien, deathThreshold])
  refine ⟨h1, h2, ?_⟩
  obtain ⟨v1, hv1, -, hlen1, hU, -⟩ := h3 Math32.sample 1 Draws.sample
    (sampleZoo Critter.zero (dyingAlien 1) (dyingAlien 2) 2) (1 / 100) 320 240 (spentAlien 1)
    (wellFormed_sampleZoo _ _ _ 2 (by decide)) rfl
    (by simp [sampleZoo, slot, Critter.zero, deathThreshold])
    (updateAlien_dyingAlien 1 _ _ _ rfl rfl)
    (by simp [spentAlien, deathThreshold]) (by simp [spentAlien]; norm_num)
  obtain ⟨-, -, -, -, -, -, hbr, hml, -, -, -⟩ := updateLive_spec _ _ _ _ _ hv1
  obtain ⟨-, -, -, -, -, hbr', hml', -⟩ := cullLoop_frame 0 v1
  refine ⟨cullDead v1, ?_, hlen1⟩
  rw [hU]
  apply tryBirth_no_admission
  · unfold cullDead; rw [hml', hml]; simp [sampleZoo, MaxCritter]
  · rw [hlen1]; unfold cullDead; rw [hml', hml]; simp [sampleZoo]
  · unfold cullDead; rw [hbr', hbr]; simp [sampleZoo, Draws.sample]; norm_num

/-! ## The claims on the phases of an alien -/

/-- One frame on a terminal alien of the sample population: the decrement of
its health wraps around and it comes back alive. -/
theorem updateAlien_spentAlien (i : Int) (u : Universe) (x0 y0 : ℚ)
    (hx : u.xSize = 640) (hy : u.ySize = 480) :
    updateAlien Math32.sample 1 u (1 / 100) x0 y0 (spentAlien i) = .ok (revivedAlien i) := by
  rw [updateAlien_inside _ 0 _ _ _ _ _ (by simp [spentAlien]; norm_num)
    (by simp [spentAlien, hx]; norm_num) (by simp [spentAlien])
    (by simp [spentAlien, hy]; norm_num)]
  rw [updateState_terminal _ _ _ _ _ _ (by simp [spentAlien])]
  simp [spentAlien, revivedAlien, Math32.sample]

theorem Update_revives :
    Update Math32.sample 1 Draws.sample
        (sampleZoo refCritter (spentAlien 2) (spentAlien 1) 2) (1 / 100) 320 240 =
      .ok (sampleZoo refCritter (revivedAlien 2) (spentAlien 1) 2) := by
  have h0 : ({ sampleZoo refCritter (spentAlien 2) (spentAlien 1) 2 with
      zooStorage := ((sampleZoo refCritter (spentAlien 2) (spentAlien 1) 2).zooStorage.set 0
        { slot (sampleZoo refCritter (spentAlien 2) (spentAlien 1) 2).zooStorage 0 with
          Sx := ((320 : Int) : ℚ), Sy := ((240 : Int) : ℚ), Amplitude := -1 }) } : Universe) =
      sampleZoo refCritter (spentAlien 2) (spentAlien 1) 2 := by
    simp [sampleZoo, slot, refCritter]
  have hl : updateLive Math32.sample 1 (sampleZoo refCritter (spentAlien 2) (spentAlien 1) 2)
      (1 / 100) = .ok (sampleZoo refCritter (revivedAlien 2) (spentAlien 1) 2) := by
    simp only [updateLive, updateLiveLoop, sampleZoo, slot, List.getD_cons_zero,
      List.getD_cons_succ, List.set_cons_succ, List.set_cons_zero]
    rw [if_neg (by decide), updateAlien_spentAlien _ _ _ _ rfl rfl]
  have hc : cullDead (sampleZoo refCritter (revivedAlien 2) (spentAlien 1) 2) =
      sampleZoo refCritter (revivedAlien 2) (spentAlien 1) 2 := by
    simp [cullDead, cullLoop, sampleZoo, slot, revivedAlien, refCritter, Critter.zero,
      deathThreshold, initialHealth]
  rw [Update_of_updateLive _ _ _ _ _ _ _ _ (by simp [sampleZoo]) (by rw [h0]; exact hl), hc,
    tryBirth_sampleZoo]

/-- C18 (defect of `updateLive`, reached through the defect of C1).  The claim
is that an alien with health `≤ 0`, down to and including `deathThreshold`,
never goes back to `health > 0`.  The population that `Update` returns in C1
has the terminal alien `spentAlien 2` in slot 1 of its live slice.  In the
next `Update`, with `dt = 1/100 ≥ 0`, `updateLive` computes `health -= 1` on
`deathThreshold`, which wraps around in `int16`: the alien comes out with
health `initialHealth > 0`, alive, and stays in the live slice. -/
theorem terminal_alien_comes_back :
    (spentAlien 2).health ≤ 0 ∧ (0 : ℚ) ≤ 1 / 100 ∧
    updateAlien Math32.sample 1 (sampleZoo refCritter (spentAlien 2) (spentAlien 1) 2)
      (1 / 100) 320 240 (spentAlien 2) = .ok (revivedAlien 2) ∧
    (revivedAlien 2).health = initialHealth ∧
    0 < (revivedAlien 2).health ∧ (spentAlien 2).health < (revivedAlien 2).health ∧
    Update Math32.sample 1 Draws.sample
        (sampleZoo refCritter (spentAlien 2) (spentAlien 1) 2) (1 / 100) 320 240 =
      .ok (sampleZoo refCritter (revivedAlien 2) (spentAlien 1) 2) :=
  ⟨by simp [spentAlien, deathThreshold], by norm_num, updateAlien_spentAlien 2 _ _ _ rfl rfl,
   rfl, by simp [revivedAlien, initialHealth],
   by simp [revivedAlien, spentAlien, initialHealth, deathThreshold], Update_revives⟩

/-- The loop body on an alive alien that is not caught. -/
theorem updateState_free (m : Math32) (u : Universe) (dt x0 y0 : ℚ) (c : Critter)
    (h0 : 0 < c.health)
    (hc : ¬ (c.Sx - x0) * (c.Sx - x0) + (c.Sy - y0) * (c.Sy - y0) ≤ u.killRadius2) :
    updateState m u dt x0 y0 c =
      { c with
        Progress := c.Progress + c.fallRate * dt
        Show := false
        Amplitude := m.Sqrt (c.Progress + c.fallRate * dt) } := by
  have hpos : c.health > 0 := h0
  simp only [updateState, hpos, if_true, hc, if_false]

/-- The loop body on an alive alien that is caught sets `Show`. -/
theorem updateState_caught_show (m : Math32) (u : Universe) (dt x0 y0 : ℚ) (c : Critter)
    (h0 : 0 < c.health)
    (hc : (c.Sx - x0) * (c.Sx - x0) + (c.Sy - y0) * (c.Sy - y0) ≤ u.killRadius2) :
    (updateState m u dt x0 y0 c).Show = true := by
  have hpos : c.health > 0 := h0
  simp only [updateState, hpos, if_true, hc]
  split_ifs <;> rfl

/-- C20.  For an alive alien (`health > 0`), whenever the step returns: if
the squared distance of its new position to `(x0, y0)`, the position of slot
0, exceeds `killRadius2`, the step has set `Show = false`, left the health as
it was, set the progress to `Progress + fallRate * dt` and the amplitude to
the square root of the new progress; and the alien is caught, `Show = true`,
exactly when that squared distance is `≤ killRadius2`.  The step does return,
on any fuel but zero, when both tentative coordinates are inside the field. -/
theorem alive_not_caught (m : Math32) (fuel : Nat) (u : Universe) (dt x0 y0 : ℚ) (c : Critter)
    (h0 : 0 < c.health) :
    (∀ c', updateAlien m fuel u dt x0 y0 c = .ok c' →
      (u.killRadius2 < (c'.Sx - x0) * (c'.Sx - x0) + (c'.Sy - y0) * (c'.Sy - y0) →
        c'.Show = false ∧ c'.health = c.health ∧
        c'.Progress = c.Progress + c.fallRate * dt ∧
        c'.Amplitude = m.Sqrt (c.Progress + c.fallRate * dt)) ∧
      (c'.Show = true ↔
        (c'.Sx - x0) * (c'.Sx - x0) + (c'.Sy - y0) * (c'.Sy - y0) ≤ u.killRadius2)) ∧
    (0 < fuel → 0 ≤ c.Sx + c.vx * dt → c.Sx + c.vx * dt ≤ u.xSize - 1 →
      0 ≤ c.Sy + c.vy * dt → c.Sy + c.vy * dt ≤ u.ySize - 1 →
      ∃ c', updateAlien m fuel u dt x0 y0 c = .ok c') := by
  constructor
  · intro c' hU
    have hc' := updateAlien_ok m fuel u dt x0 y0 c c' hU
    obtain ⟨cm, hcm⟩ : ∃ cm : Critter,
        cm = { c with Sx := c.Sx + c.vx * dt, Sy := c.Sy + c.vy * dt } := ⟨_, rfl⟩
    rw [← hcm] at hc'
    have hmh : 0 < cm.health := by rw [hcm]; exact h0
    obtain ⟨hsx, hsy⟩ := updateState_Sx m u dt x0 y0 cm
    rw [← hc'] at hsx hsy
    rw [hsx, hsy]
    constructor
    · intro hfar
      have hst := updateState_free m u dt x0 y0 cm hmh (not_le.mpr hfar)
      rw [← hc'] at hst
      rw [hst, hcm]
      exact ⟨rfl, rfl, rfl, rfl⟩
    · constructor
      · intro hs
        by_contra hfar
        have hst := updateState_free m u dt x0 y0 cm hmh hfar
        rw [← hc'] at hst
        rw [hst] at hs
        cases hs
      · intro hnear
        rw [hc']
        exact updateState_caught_show m u dt x0 y0 cm hmh hnear
  · intro hf hx0 hx1 hy0 hy1
    obtain ⟨n, rfl⟩ := Nat.exists_eq_succ_of_ne_zero (Nat.pos_iff_ne_zero.mp hf)
    exact ⟨_, updateAlien_inside m n u dt x0 y0 c hx0 hx1 hy0 hy1⟩

/-- Witness of C20: an alive alien at `(100, 100)` with the reference entity
at `(320, 240)`, out of the kill radius. -/
theorem alive_not_caught_witness :
    ∃ c', updateAlien Math32.sample 1 (Init Universe.start 640 480) (1 / 100) 320 240
        (aliveAlien 5) = .ok c' ∧
      c'.Show = false ∧ c'.health = 5 ∧
      c'.Progress = (aliveAlien 5).Progress + (aliveAlien 5).fallRate * (1 / 100) := by
  have h := alive_not_caught Math32.sample 1 (Init Universe.start 640 480) (1 / 100) 320 240
    (aliveAlien 5) (by simp [aliveAlien])
  obtain ⟨c', hc', hx, hy⟩ := updateAlien_position Math32.sample 0 (Init Universe.start 640 480)
    (1 / 100) 320 240 (aliveAlien 5) (by simp [aliveAlien]; norm_num)
    (by simp [aliveAlien, Init]; norm_num) (by simp [aliveAlien])
    (by simp [aliveAlien, Init]; norm_num)
  obtain ⟨hs, hh, hp, -⟩ := (h.1 c' hc').1
    (by rw [hx, hy]; simp [aliveAlien, Init]; norm_num)
  exact ⟨c', hc', hs, hh, hp⟩

/-! ## The reference entity -/

/-- One `Update` that returns on a population with a reference entity that is
not terminal: slot 0 holds its old record with the position and the amplitude
overwritten, the live slice is not empty and the backing array keeps its
shape. -/
theorem Update_slot0 (m : Math32) (fuel : Nat) (d : Draws) (u u' : Universe) (dt : ℚ)
    (selfX selfY : Int) (hwf : WellFormed u) (h1 : 1 ≤ u.zooLen)
    (h0 : deathThreshold < (slot u.zooStorage 0).health)
    (h : Update m fuel d u dt selfX selfY = .ok u') :
    slot u'.zooStorage 0 =
      { slot u.zooStorage 0 with Sx := (selfX : ℚ), Sy := (selfY : ℚ), Amplitude := -1 } ∧
    1 ≤ u'.zooLen ∧ WellFormed u' := by
  have hl16 : u.zooStorage.length = 16 := hwf.1
  have hle16 : u.zooLen ≤ 16 := hwf.2
  unfold Update at h
  rw [if_neg (by omega)] at h
  simp only at h
  obtain ⟨u0, hu0⟩ : ∃ u0 : Universe, u0 =
      { u with zooStorage := (u.zooStorage.set 0
          { slot u.zooStorage 0 with Sx := (selfX : ℚ), Sy := (selfY : ℚ), Amplitude := -1 }) } :=
    ⟨_, rfl⟩
  rw [← hu0] at h
  have hs0 : slot u0.zooStorage 0 =
      { slot u.zooStorage 0 with Sx := (selfX : ℚ), Sy := (selfY : ℚ), Amplitude := -1 } := by
    rw [hu0]; exact slot_set_self _ _ _ (by omega)
  have hu0len : u0.zooLen = u.zooLen := by rw [hu0]
  have hu0store : u0.zooStorage.length = 16 := by rw [hu0]; simpa using hl16
  cases hL : updateLive m fuel u0 dt with
  | error e => rw [hL] at h; cases h
  | ok u1 =>
    rw [hL] at h
    simp only at h
    obtain ⟨-, hlen1, hstore1, -, -, -, -, -, -, hkeep, -⟩ := updateLive_spec m fuel u0 u1 dt hL
    have hs1 : slot u1.zooStorage 0 = slot u0.zooStorage 0 := hkeep 0 (Or.inl (by omega))
    have hh1 : deathThreshold < (slot u1.zooStorage 0).health := by
      rw [hs1, hs0]; exact h0
    obtain ⟨hs2, hlen2⟩ := cullLoop_slot0 0 u1 (by omega) hh1
    obtain ⟨hstore2, hle2, -⟩ := cullLoop_frame 0 u1
    have hstoreC : (cullDead u1).zooStorage.length = MaxCritter := by
      unfold cullDead; rw [hstore2, hstore1, hu0store]; rfl
    rcases tryBirth_ok_cases m d (cullDead u1) u' dt hstoreC h with ⟨he, -⟩ | hb
    · rw [he]
      refine ⟨by unfold cullDead; rw [hs2, hs1, hs0], hlen2, hstoreC, ?_⟩
      unfold cullDead
      simp only [MaxCritter]
      omega
    · obtain ⟨-, -, -, hpick, hlen', hstore', -, -, -, -, -, -, hkeep', -⟩ := hb
      refine ⟨?_, by omega, hstore', by omega⟩
      rw [hkeep' 0 (by unfold cullDead; omega)]
      unfold cullDead
      rw [hs2, hs1, hs0]

/-- The invariant of the reachable states: the backing array has its shape,
the live slice holds the reference entity, and slot 0 has id 0 and the
health 0 that it has in the zero-initialised store. -/
theorem reachable_invariant (u : Universe) (h : Reachable u) :
    WellFormed u ∧ 1 ≤ u.zooLen ∧ (slot u.zooStorage 0).id = 0 ∧
    (slot u.zooStorage 0).health = 0 := by
  induction h with
  | init width height =>
    refine ⟨wellFormed_Init_start width height, by simp [Init], ?_, ?_⟩
    · simp [Init, Universe.start, slot, MaxCritter, List.replicate]
    · simp [Init, Universe.start, slot, MaxCritter, List.replicate, Critter.zero]
  | update m fuel d u u' dt selfX selfY birthRate maxLive velocityMax _ hU ih =>
    obtain ⟨hwf, h1, hid, hh⟩ := ih
    obtain ⟨hs, hlen, hwf'⟩ := Update_slot0 m fuel d _ u' dt selfX selfY
      (show WellFormed
        { u with birthRate := birthRate, maxLive := maxLive, velocityMax := velocityMax }
      from hwf) h1
      (by show deathThreshold < (slot u.zooStorage 0).health; rw [hh]; decide) hU
    refine ⟨hwf', hlen, ?_, ?_⟩
    · rw [hs]; exact hid
    · rw [hs]; exact hh

/-- C19.  In every state reachable from the zero-initialised store by `Init`
followed by calls of `Update` that return, the live length is `≥ 1`, so the
next `Update` does not take its empty-population panic, and slot 0 has id 0.
Every `Update` that returns from such a state leaves in slot 0 the record
that was there, with `Sx = x`, `Sy = y` and `Amplitude = -1` written over it:
slot 0 is not culled and not initialised by a birth, and the live length is
still `≥ 1`. -/
theorem reference_entity_invariant (u : Universe) (h : Reachable u) :
    1 ≤ u.zooLen ∧ (slot u.zooStorage 0).id = 0 ∧
    ∀ (m : Math32) (fuel : Nat) (d : Draws) (dt : ℚ) (selfX selfY : Int) (birthRate : ℚ)
      (maxLive : Int) (velocityMax : ℚ) (u' : Universe),
      Update m fuel d
        { u with birthRate := birthRate, maxLive := maxLive, velocityMax := velocityMax }
        dt selfX selfY = .ok u' →
      slot u'.zooStorage 0 =
        { slot u.zooStorage 0 with Sx := (selfX : ℚ), Sy := (selfY : ℚ), Amplitude := -1 } ∧
      (slot u'.zooStorage 0).Sx = (selfX : ℚ) ∧ (slot u'.zooStorage 0).Sy = (selfY : ℚ) ∧
      (slot u'.zooStorage 0).Amplitude = -1 ∧ (slot u'.zooStorage 0).id = 0 ∧
      1 ≤ u'.zooLen := by
  obtain ⟨hwf, h1, hid, hh⟩ := reachable_invariant u h
  refine ⟨h1, hid, fun m fuel d dt selfX selfY birthRate maxLive velocityMax u' hU => ?_⟩
  obtain ⟨hs, hlen, -⟩ := Update_slot0 m fuel d _ u' dt selfX selfY
    (show WellFormed
        { u with birthRate := birthRate, maxLive := maxLive, velocityMax := velocityMax }
      from hwf) h1
    (by show deathThreshold < (slot u.zooStorage 0).health; rw [hh]; decide) hU
  refine ⟨hs, ?_, ?_, ?_, ?_, hlen⟩
  · rw [hs]
  · rw [hs]
  · rw [hs]
  · rw [hs]; exact hid

/-- Witness of C19 on the state that `Init(640, 480)` leaves and its first
`Update(1.0, 320, 240)`, with a generator that always returns `0`. -/
theorem reference_entity_invariant_witness :
    1 ≤ (Init Universe.start 640 480).zooLen ∧
    (slot (Init Universe.start 640 480).zooStorage 0).id = 0 ∧
    ∃ u', Update Math32.sample 1 Draws.zero (Init Universe.start 640 480) 1 320 240 = .ok u' ∧
      (slot u'.zooStorage 0).Sx = ((320 : Int) : ℚ) ∧
      (slot u'.zooStorage 0).Sy = ((240 : Int) : ℚ) ∧
      (slot u'.zooStorage 0).Amplitude = -1 ∧ (slot u'.zooStorage 0).id = 0 ∧
      1 ≤ u'.zooLen := by
  obtain ⟨h1, h2, h3⟩ := reference_entity_invariant (Init Universe.start 640 480)
    (Reachable.init 640 480)
  obtain ⟨u0, hlen, hmax, -, -, hU⟩ := Update_after_Init Draws.zero
  obtain ⟨u', hu'⟩ := tryBirth_returns Math32.sample Draws.zero u0 1
    (fun _ => by rw [hlen]; decide)
    (by rw [not_or, hlen, hmax]; decide)
  have hU' : Update Math32.sample 1 Draws.zero (Init Universe.start 640 480) 1 320 240 = .ok u' := by
    rw [hU, hu']
  obtain ⟨-, hx, hy, ha, hid, hl⟩ := h3 Math32.sample 1 Draws.zero 1 320 240 1 1 1 u' hU'
  exact ⟨h1, h2, u', hU', hx, hy, ha, hid, hl⟩

end Frequon
